import Mathlib

/-!
Verification of the pm-tools cache/audit core and its cache-aware operations.

Shallow embedding of `src/pm_tools/cache.py`, `search.py`, `fetch.py`,
`cite.py` and `download.py`.  Python dicts are modelled as insertion-ordered
association lists with overwrite-on-assign, the filesystem as an explicit
state, network collaborators as oracle functions, and fallible code as
`Except`-valued functions.
-/

namespace PmTools

/-! ## Insertion-ordered dictionaries (Python `dict` semantics) -/

/-- Python dict assignment: overwrite in place if the key exists, else append. -/
def dictInsert (d : List (String × α)) (k : String) (v : α) : List (String × α) :=
  if (d.find? (fun p => p.1 == k)).isSome then
    d.map (fun p => if p.1 == k then (k, v) else p)
  else d ++ [(k, v)]

/-- Python dict lookup (`d.get(k)` / `d[k]`). -/
def dictFind (d : List (String × α)) (k : String) : Option α :=
  (d.find? (fun p => p.1 == k)).map Prod.snd

/-- Python `k in d`. -/
def dictMem (d : List (String × α)) (k : String) : Bool :=
  (dictFind d k).isSome

/-- Remove a key (used to model `os.unlink`). -/
def dictErase (d : List (String × α)) (k : String) : List (String × α) :=
  d.filter (fun p => ¬(p.1 == k))

/-- Build a dict from pairs by repeated assignment (last value wins). -/
def dictOfPairs (l : List (String × α)) : List (String × α) :=
  l.foldl (fun d kv => dictInsert d kv.1 kv.2) []

theorem dictFind_nil (k : String) : dictFind ([] : List (String × α)) k = none := rfl

theorem dictFind_cons (hd : String × α) (tl : List (String × α)) (k : String) :
    dictFind (hd :: tl) k = if hd.1 = k then some hd.2 else dictFind tl k := by
  unfold dictFind
  by_cases h : hd.1 = k
  · rw [List.find?_cons_of_pos _ (by simpa using h), if_pos h]
    rfl
  · rw [List.find?_cons_of_neg _ (by simpa using h), if_neg h]

theorem dictFind_append (d₁ d₂ : List (String × α)) (k : String) :
    dictFind (d₁ ++ d₂) k =
      match dictFind d₁ k with
      | some v => some v
      | none => dictFind d₂ k := by
  induction d₁ with
  | nil => simp [dictFind_nil]
  | cons hd tl ih =>
    rw [List.cons_append, dictFind_cons, dictFind_cons]
    by_cases h : hd.1 = k
    · simp [h]
    · simp only [if_neg h]
      exact ih

theorem dictFind_map_overwrite_ne (d : List (String × α)) (k k' : String) (v : α)
    (h : k ≠ k') :
    dictFind (d.map (fun p => if p.1 == k then (k, v) else p)) k' = dictFind d k' := by
  induction d with
  | nil => rfl
  | cons hd tl ih =>
    rw [List.map_cons]
    by_cases hk : hd.1 = k
    · rw [if_pos (by simpa using hk), dictFind_cons, dictFind_cons]
      rw [if_neg h, if_neg (by rw [hk]; exact h)]
      exact ih
    · rw [if_neg (by simpa using hk), dictFind_cons, dictFind_cons]
      by_cases hq : hd.1 = k'
      · rw [if_pos hq, if_pos hq]
      · rw [if_neg hq, if_neg hq]
        exact ih

theorem dictFind_map_overwrite_mem (d : List (String × α)) (k : String) (v : α)
    (h : (d.find? (fun p => p.1 == k)).isSome) :
    dictFind (d.map (fun p => if p.1 == k then (k, v) else p)) k = some v := by
  induction d with
  | nil => simp at h
  | cons hd tl ih =>
    rw [List.map_cons]
    by_cases hk : hd.1 = k
    · rw [if_pos (by simpa using hk), dictFind_cons, if_pos rfl]
    · rw [if_neg (by simpa using hk), dictFind_cons, if_neg hk]
      rw [List.find?_cons_of_neg _ (by simpa using hk)] at h
      exact ih h

/-- Characterization of dict lookup after assignment. -/
theorem dictFind_insert (d : List (String × α)) (k : String) (v : α) (k' : String) :
    dictFind (dictInsert d k v) k' = if k' = k then some v else dictFind d k' := by
  unfold dictInsert
  by_cases hs : (d.find? (fun p => p.1 == k)).isSome
  · rw [if_pos hs]
    by_cases hkk : k' = k
    · subst hkk
      rw [if_pos rfl]
      exact dictFind_map_overwrite_mem d k' v hs
    · rw [if_neg hkk]
      exact dictFind_map_overwrite_ne d k k' v (fun he => hkk he.symm)
  · rw [if_neg hs]
    have habs : dictFind d k = none := by
      unfold dictFind
      rw [Option.not_isSome_iff_eq_none.mp hs]
      rfl
    rw [dictFind_append]
    by_cases hkk : k' = k
    · subst hkk
      rw [habs, if_pos rfl, dictFind_cons, if_pos rfl]
    · rw [if_neg hkk]
      cases hq : dictFind d k' with
      | some w => rfl
      | none =>
        simp only []
        rw [dictFind_cons, if_neg (fun he => hkk he.symm), dictFind_nil]

/-- Characterization of dict lookup after key removal. -/
theorem dictFind_erase (d : List (String × α)) (k k' : String) :
    dictFind (dictErase d k) k' = if k' = k then none else dictFind d k' := by
  unfold dictErase
  induction d with
  | nil => simp [dictFind_nil]
  | cons hd tl ih =>
    by_cases hk : hd.1 = k
    · rw [List.filter_cons_of_neg (by simpa using hk)]
      rw [ih, dictFind_cons]
      by_cases hkk : k' = k
      · rw [if_pos hkk, if_pos hkk]
      · rw [if_neg hkk, if_neg hkk, if_neg (by rw [hk]; exact fun he => hkk he.symm)]
    · rw [List.filter_cons_of_pos (by simpa using hk)]
      rw [dictFind_cons, dictFind_cons, ih]
      by_cases hq : hd.1 = k'
      · rw [if_pos hq, if_pos hq]
        rw [if_neg (fun he : k' = k => hk (hq.trans he))]
      · rw [if_neg hq, if_neg hq]

/-! ## Python string / list primitives used by the operations -/

/-- ASCII whitespace, as recognised by Python's `str.strip()` / `str.isspace()`
on the ASCII range. -/
def pyIsSpace (c : Char) : Bool :=
  c = ' ' ∨ c = '\t' ∨ c = '\n' ∨ c = '\r' ∨ c = '\x0b' ∨ c = '\x0c'

/-- Python `s.strip()`: drop leading and trailing whitespace, for an arbitrary
whitespace predicate `isSpace`. -/
def pyStrip (isSpace : Char → Bool) (s : String) : String :=
  ⟨((s.data.dropWhile isSpace).reverse.dropWhile isSpace).reverse⟩

theorem pyStrip_empty (isSpace : Char → Bool) : pyStrip isSpace "" = "" := rfl

/-- First-occurrence-order deduplication, as the `seen`-set loop in `cite.py`
(membership in the accumulated unique list coincides with membership in the
`seen` set). -/
def dedupFirst (l : List String) : List String :=
  l.foldl (fun acc p => if p ∈ acc then acc else acc ++ [p]) []

theorem dedupFirst_go_nodup (l : List String) (acc : List String) (h : acc.Nodup) :
    (l.foldl (fun acc p => if p ∈ acc then acc else acc ++ [p]) acc).Nodup := by
  induction l generalizing acc with
  | nil => exact h
  | cons x xs ih =>
    rw [List.foldl_cons]
    by_cases hx : x ∈ acc
    · rw [if_pos hx]; exact ih acc h
    · rw [if_neg hx]
      exact ih (acc ++ [x]) (by simp [List.nodup_append, h, hx])

theorem dedupFirst_nodup (l : List String) : (dedupFirst l).Nodup :=
  dedupFirst_go_nodup l [] List.nodup_nil

theorem dedupFirst_go_mem (l : List String) (acc : List String) (x : String) :
    x ∈ l.foldl (fun acc p => if p ∈ acc then acc else acc ++ [p]) acc ↔
      x ∈ acc ∨ x ∈ l := by
  induction l generalizing acc with
  | nil => simp
  | cons y ys ih =>
    rw [List.foldl_cons]
    by_cases hy : y ∈ acc
    · rw [if_pos hy, ih]
      constructor
      · rintro (h | h)
        · exact Or.inl h
        · exact Or.inr (List.mem_cons_of_mem _ h)
      · rintro (h | h)
        · exact Or.inl h
        · rcases List.mem_cons.mp h with rfl | h
          · exact Or.inl hy
          · exact Or.inr h
    · rw [if_neg hy, ih]
      simp only [List.mem_append, List.mem_singleton, List.mem_cons]
      tauto

theorem dedupFirst_mem (l : List String) (x : String) :
    x ∈ dedupFirst l ↔ x ∈ l := by
  unfold dedupFirst
  rw [dedupFirst_go_mem]
  simp

/-- Python `range(0, len(l), bs)` slicing: split `l` into chunks of `bs`. -/
def pyChunks (bs : Nat) (l : List α) : List (List α) :=
  match l with
  | [] => []
  | x :: xs =>
    if bs = 0 then []
    else (x :: xs).take bs :: pyChunks bs ((x :: xs).drop bs)
termination_by l.length
decreasing_by
  simp only [List.length_drop, List.length_cons]
  exact Nat.sub_lt (Nat.succ_pos _) (Nat.pos_of_ne_zero (by assumption))

theorem pyChunks_flatten_bounded (bs : Nat) (hbs : bs ≠ 0) :
    ∀ (n : Nat) (l : List α), l.length ≤ n → (pyChunks bs l).flatten = l := by
  intro n
  induction n with
  | zero =>
    intro l hl
    rw [List.eq_nil_of_length_eq_zero (Nat.le_zero.mp hl)]
    rw [pyChunks]
    rfl
  | succ n ih =>
    intro l hl
    cases l with
    | nil => rw [pyChunks]; rfl
    | cons x xs =>
      rw [pyChunks, if_neg hbs, List.flatten_cons]
      have hlen : ((x :: xs).drop bs).length ≤ n := by
        rw [List.length_drop]
        have h1 : (x :: xs).length - bs ≤ (x :: xs).length - 1 :=
          Nat.sub_le_sub_left (Nat.pos_of_ne_zero hbs) _
        have h2 : (x :: xs).length - 1 ≤ n := by
          simp only [List.length_cons, Nat.add_sub_cancel]
          exact Nat.le_of_succ_le_succ (by simpa using hl)
        exact le_trans h1 h2
      rw [ih _ hlen]
      exact List.take_append_drop bs (x :: xs)

theorem pyChunks_flatten (bs : Nat) (hbs : bs ≠ 0) (l : List α) :
    (pyChunks bs l).flatten = l :=
  pyChunks_flatten_bounded bs hbs l.length l le_rfl

/-- Python `max(l, key=f)` on a nonempty list: first maximum wins. -/
def pyMaxBy (f : α → Nat) : List α → Option α
  | [] => none
  | x :: xs => some (xs.foldl (fun acc y => if f acc < f y then y else acc) x)

theorem pyMaxBy_go_mem (f : α → Nat) (xs : List α) (x : α) :
    xs.foldl (fun acc y => if f acc < f y then y else acc) x ∈ x :: xs := by
  induction xs generalizing x with
  | nil => simp
  | cons y ys ih =>
    rw [List.foldl_cons]
    by_cases h : f x < f y
    · rw [if_pos h]
      have := ih y
      simp only [List.mem_cons] at this ⊢
      tauto
    · rw [if_neg h]
      have := ih x
      simp only [List.mem_cons] at this ⊢
      tauto

theorem pyMaxBy_go_le (f : α → Nat) (xs : List α) (x : α) :
    ∀ z ∈ x :: xs, f z ≤ f (xs.foldl (fun acc y => if f acc < f y then y else acc) x) := by
  induction xs generalizing x with
  | nil => simp
  | cons y ys ih =>
    intro z hz
    rw [List.foldl_cons]
    rcases List.mem_cons.mp hz with rfl | hz'
    · by_cases h : f z < f y
      · rw [if_pos h]
        exact le_trans (le_of_lt h) (ih y y (List.mem_cons_self y ys))
      · rw [if_neg h]
        exact ih z z (List.mem_cons_self z ys)
    · rcases List.mem_cons.mp hz' with rfl | hz''
      · by_cases h : f x < f z
        · rw [if_pos h]
          exact ih z z (List.mem_cons_self z ys)
        · rw [if_neg h]
          exact le_trans (le_of_not_lt h) (ih x x (List.mem_cons_self x ys))
      · by_cases h : f x < f y
        · rw [if_pos h]
          exact ih y z (List.mem_cons_of_mem y hz'')
        · rw [if_neg h]
          exact ih x z (List.mem_cons_of_mem x hz'')

theorem pyMaxBy_mem (f : α → Nat) (l : List α) (m : α) (h : pyMaxBy f l = some m) :
    m ∈ l := by
  cases l with
  | nil => simp [pyMaxBy] at h
  | cons x xs =>
    simp only [pyMaxBy, Option.some_inj] at h
    rw [← h]
    exact pyMaxBy_go_mem f xs x

theorem pyMaxBy_le (f : α → Nat) (l : List α) (m : α) (h : pyMaxBy f l = some m) :
    ∀ z ∈ l, f z ≤ f m := by
  cases l with
  | nil => simp [pyMaxBy] at h
  | cons x xs =>
    simp only [pyMaxBy, Option.some_inj] at h
    rw [← h]
    exact pyMaxBy_go_le f xs x

/-- Auxiliary scan for the substring test. -/
def containsSubAux (pat : List Char) : List Char → Bool
  | [] => pat.isEmpty
  | c :: rest => pat.isPrefixOf (c :: rest) || containsSubAux pat rest

/-- Python substring test `pat in s`. -/
def containsSub (s pat : String) : Bool :=
  containsSubAux pat.data s.data

/-- Python `s.lower()` (ASCII range). -/
def pyLower (s : String) : String :=
  ⟨s.data.map Char.toLower⟩

/-- Python `s.endswith(suf)`. -/
def pyEndsWith (s suf : String) : Bool :=
  suf.data.reverse.isPrefixOf s.data.reverse

/-! ## `cache.py`: cache store and audit logger over an explicit filesystem -/

/-- What a stored file can look like from `Path.read_text`'s point of view. -/
inductive FileContent
  | osErr                -- reading raises OSError
  | badUtf8              -- bytes that are not valid UTF-8: read_text raises UnicodeDecodeError
  | text (s : String)    -- decodes fine
deriving Repr, DecidableEq

/-- Python exceptions that can escape the embedded functions. -/
inductive PyExc
  | unicodeDecodeError
  | osError
  | valueError
deriving Repr, DecidableEq

/-- Filesystem state: files by absolute path, plus the set of created dirs. -/
structure FS where
  files : List (String × FileContent)
  dirs : List String
deriving Repr, DecidableEq

/-- `_JSON_CATEGORIES` from cache.py. -/
def JSON_CATEGORIES : List String := ["search", "cite", "download"]

/-- `_XML_CATEGORIES` from cache.py. -/
def XML_CATEGORIES : List String := ["fetch"]

/-- `pm_dir / "cache" / category / key`. -/
def cachePath (root category key : String) : String :=
  root ++ "/cache/" ++ category ++ "/" ++ key

/-- `pm_dir / "cache" / category`. -/
def cacheParent (root category : String) : String :=
  root ++ "/cache/" ++ category

/-- `cache_read` from cache.py.  `jsonValid` / `xmlValid` are oracles for
`json.loads` / `ET.fromstring` succeeding on a decoded payload.  Returns the
value `cache_read` returns, or the exception it raises. -/
def cache_read (jsonValid xmlValid : String → Bool) (pm_dir : Option String)
    (category key : String) (fs : FS) : Except PyExc (Option String) :=
  match pm_dir with
  | none => .ok none
  | some root =>
    match dictFind fs.files (cachePath root category key) with
    | none => .ok none                           -- not path.exists()
    | some .osErr => .ok none                    -- except OSError: return None
    | some .badUtf8 => .error .unicodeDecodeError -- UnicodeDecodeError is NOT caught
    | some (.text data) =>
      if JSON_CATEGORIES.contains category then
        if jsonValid data then .ok (some data) else .ok none
      else if XML_CATEGORIES.contains category then
        if xmlValid data then .ok (some data) else .ok none
      else .ok (some data)

/-- Injected failure point inside `cache_write`'s try block. -/
inductive WriteFail
  | atWrite    -- os.write raises
  | atClose    -- os.close raises
  | atReplace  -- os.replace raises
deriving Repr, DecidableEq

/-- `cache_write` from cache.py: mkdir parents, mkstemp a fresh `tmpName`
in the category dir, write, close, `os.replace` onto the final path; on any
failure close/unlink the temp artifact and re-raise. -/
def cache_write (pm_dir : Option String) (category key data : String)
    (fs : FS) (tmpName : String) (failAt : Option WriteFail) :
    Except PyExc Unit × FS :=
  match pm_dir with
  | none => (.ok (), fs)
  | some root =>
    let path := cachePath root category key
    let parent := cacheParent root category
    let dirs1 := if parent ∈ fs.dirs then fs.dirs else fs.dirs ++ [parent]
    let tmp := parent ++ "/" ++ tmpName
    -- mkstemp creates the (empty) temp file
    let files1 := dictInsert fs.files tmp (.text "")
    match failAt with
    | some .atWrite =>
      -- os.write raises after possibly partial output; cleanup unlinks tmp
      (.error .osError, { files := dictErase files1 tmp, dirs := dirs1 })
    | some .atClose =>
      (.error .osError,
        { files := dictErase (dictInsert files1 tmp (.text data)) tmp, dirs := dirs1 })
    | some .atReplace =>
      -- os.replace fails atomically: target untouched, tmp unlinked by cleanup
      (.error .osError,
        { files := dictErase (dictInsert files1 tmp (.text data)) tmp, dirs := dirs1 })
    | none =>
      let files2 := dictInsert files1 tmp (.text data)
      (.ok (), { files := dictInsert (dictErase files2 tmp) path (.text data), dirs := dirs1 })

/-- `audit_log` from cache.py: append one serialized line (`line` already
carries the stamped timestamp and trailing newline) to `<root>/audit.jsonl`
with O_APPEND|O_CREAT semantics. -/
def audit_log (pm_dir : Option String) (line : String) (fs : FS) :
    Except PyExc Unit × FS :=
  match pm_dir with
  | none => (.ok (), fs)
  | some root =>
    let path := root ++ "/audit.jsonl"
    match dictFind fs.files path with
    | none => (.ok (), { fs with files := dictInsert fs.files path (.text line) })
    | some (.text s) =>
      (.ok (), { fs with files := dictInsert fs.files path (.text (s ++ line)) })
    | some _ => (.error .osError, fs)

/-- Strings are equal iff their character lists are. -/
theorem string_eq_of_data_eq (s t : String) (h : s.data = t.data) : s = t := by
  cases s; cases t; exact congrArg String.mk h

theorem string_append_data (s t : String) : (s ++ t).data = s.data ++ t.data := rfl

/-- Left-cancellation of string append: needed to separate the temp path from
the target path inside one category directory. -/
theorem string_append_left_cancel (s a b : String) (h : s ++ a = s ++ b) : a = b := by
  apply string_eq_of_data_eq
  have hd : s.data ++ a.data = s.data ++ b.data := by
    rw [← string_append_data, ← string_append_data, h]
  exact List.append_cancel_left hd

/-! ## `search.py`: whole-query-keyed cache-aware search, as an effect trace -/

/-- Externally observable effects of one `search` call, in program order. -/
inductive SEvent
  | cacheReadEv (key : String)
  | networkEv (query : String) (maxv : Nat)
  | auditEv (cachedFlag : Bool)
  | cacheWriteEv (key : String)
deriving Repr, DecidableEq

/-- The envelope stored under the search cache key (`query`/`max_results`/
`pmids`/`count`/`timestamp`); only the fields `search` reads back matter. -/
structure SearchEnv where
  pmids : List String
  timestamp : String
deriving Repr, DecidableEq

/-- `search` from search.py.  `hkey` is the value of `_cache_key(query,
max_results)` (same derivation at the read and the write site); `cached` is
the decoded envelope if `cache_read` hits; `network` is the PMID list parsed
from the esearch response.  Returns the result (or raised exception) and the
effect trace. -/
def search (isSpace : Char → Bool) (query : String) (maxv : Nat)
    (cacheDir pmDir refresh : Bool) (hkey : String)
    (cached : Option SearchEnv) (network : List String) :
    Except PyExc (List String) × List SEvent :=
  if query = "" ∨ pyStrip isSpace query = "" then
    (.error .valueError, [])
  else
    let hitAndTrace :=
      if cacheDir ∧ ¬refresh then (cached, [SEvent.cacheReadEv hkey])
      else (none, [])
    match hitAndTrace with
    | (some env, tr0) =>
      -- cached hit: stderr staleness note, audit {cached: true}, return pmids
      (.ok env.pmids, tr0 ++ (if pmDir then [SEvent.auditEv true] else []))
    | (none, tr0) =>
      let tr1 := tr0 ++ [SEvent.networkEv query maxv]
      -- audit BEFORE cache write (crash-safety: audit is source of truth)
      let tr2 := tr1 ++ (if pmDir then [SEvent.auditEv false] else [])
      let tr3 := tr2 ++ (if cacheDir then [SEvent.cacheWriteEv hkey] else [])
      (.ok network, tr3)

/-! ## `fetch.py`: per-PMID-keyed cache-aware fetch -/

/-- `XML_HEADER` from fetch.py. -/
def XML_HEADER : String := "<?xml version=\"1.0\" ?>\n"

/-- `XML_DOCTYPE` from fetch.py. -/
def XML_DOCTYPE : String :=
  "<!DOCTYPE PubmedArticleSet PUBLIC \"-//NLM//DTD PubMedArticle, 1st January 2024//EN\"\n \"https://dtd.nlm.nih.gov/ncbi/pubmed/out/pubmed_240101.dtd\">\n"

/-- `_reassemble_xml` from fetch.py. -/
def reassemble_xml (fragments : List String) : String :=
  if fragments.isEmpty then ""
  else
    XML_HEADER ++ XML_DOCTYPE ++ "<PubmedArticleSet>\n"
      ++ String.intercalate "\n" fragments ++ "\n</PubmedArticleSet>"

/-- One audit event emitted by `fetch`. -/
structure FetchAudit where
  requested : Nat
  cached : Nat
  fetched : Nat
  refreshed : Bool
deriving Repr, DecidableEq

/-- Observable outcome of one `fetch` call: returned XML, the per-PMID
fragment list it was reassembled from, the cache keys looked up (in order),
the PMIDs sent over the network (in order, concatenation of the batches),
the cache keys written (in order), and the audit events. -/
structure FetchOut where
  result : String
  frags : List String
  lookups : List String
  requested : List String
  writes : List String
  audits : List FetchAudit
deriving Repr, DecidableEq

/-- The per-PMID partition step in `fetch` (the loop that splits `pmids`
into `cached_fragments` and `uncached_pmids`). -/
def fetchPartStep (cache : String → Option String)
    (acc : List (String × String) × List String) (p : String) :
    List (String × String) × List String :=
  match cache p with
  | some c => (dictInsert acc.1 p c, acc.2)
  | none => (acc.1, acc.2 ++ [p])

/-- `fetch` from fetch.py.  `cache p` is the result of
`cache_read(cache_dir, "fetch", f"{p}.xml")`; `netMerged u` is
`_merge_xml_responses` of the efetch responses for the uncached list `u`;
`netFragments u` is `split_xml_articles` of that merged document, as
(pmid, fragment) pairs in document order. -/
def fetch (isSpace : Char → Bool) (pmids0 : List String)
    (cache : String → Option String)
    (netMerged : List String → String)
    (netFragments : List String → List (String × String))
    (cacheDir pmDir refresh : Bool) : FetchOut :=
  -- pmids = [p for p in pmids if p.strip()]  — NOTE: no deduplication
  let pmids := pmids0.filter (fun p => ¬(pyStrip isSpace p = ""))
  if pmids.isEmpty then ⟨"", [], [], [], [], []⟩
  else if ¬cacheDir then
    -- cache_dir is None: everything is uncached, return merged XML directly
    { result := netMerged pmids
      frags := []
      lookups := []
      requested := pmids
      writes := []
      audits := if pmDir then [⟨pmids.length, 0, pmids.length, refresh⟩] else [] }
  else
    let part :=
      if ¬refresh then
        pmids.foldl (fetchPartStep cache)
          (([] : List (String × String)), ([] : List String))
      else (([] : List (String × String)), pmids)
    let cachedF := part.1
    let uncached := part.2
    let lookups := if ¬refresh then pmids else []
    let merged := if ¬uncached.isEmpty then netMerged uncached else ""
    let fetched :=
      if ¬uncached.isEmpty ∧ ¬(merged = "") then dictOfPairs (netFragments uncached)
      else []
    let writes := fetched.map (fun kv => kv.1 ++ ".xml")
    let audits := if pmDir then [⟨pmids.length, cachedF.length, fetched.length, refresh⟩] else []
    let frags := pmids.filterMap (fun p =>
      match dictFind cachedF p with
      | some c => some c
      | none => dictFind fetched p)
    { result := reassemble_xml frags
      frags := frags
      lookups := lookups
      requested := uncached
      writes := writes
      audits := audits }

/-! ## `cite.py`: per-PMID-keyed cache-aware citation fetch -/

/-- One CSL-JSON item as the Citation Exporter returns it: its `PMID` field
(`item.get("PMID", "")`) plus the rest of the payload, opaque. -/
structure CiteItem where
  pmid : String
  body : String
deriving Repr, DecidableEq

/-- Accumulator of the per-batch fetch loop in `cite`. -/
structure CiteLoopAcc where
  fetched : List (String × CiteItem)
  flat : List CiteItem
  writes : List (String × String)
  requested : List String
deriving Repr, DecidableEq

/-- Observable outcome of one `cite` call. -/
structure CiteOut where
  results : List CiteItem
  lookups : List String
  requested : List String
  writes : List (String × String)
  audits : List FetchAudit
deriving Repr, DecidableEq

/-- The per-cached-lookup partition step in `cite` (the loop that splits
`unique_pmids` into `cached_results` and `uncached_pmids`). -/
def citePartStep (cache : String → Option String) (decode : String → CiteItem)
    (acc : List (String × CiteItem) × List String) (p : String) :
    List (String × CiteItem) × List String :=
  match cache p with
  | some c => (dictInsert acc.1 p (decode c), acc.2)
  | none => (acc.1, acc.2 ++ [p])

/-- The per-item body of `cite`'s fetch loop: append to `flat_results`, and
for a nonempty PMID record it in `fetched_results` and write it through the
cache when a cache dir is present. -/
def citeItemStep (encode : CiteItem → String) (cacheDir : Bool)
    (a : CiteLoopAcc) (item : CiteItem) : CiteLoopAcc :=
  let a := { a with flat := a.flat ++ [item] }
  if item.pmid = "" then a
  else
    { a with
      fetched := dictInsert a.fetched item.pmid item
      writes :=
        if cacheDir then a.writes ++ [(item.pmid ++ ".json", encode item)]
        else a.writes }

/-- The per-batch body of `cite`'s fetch loop: issue the request, skip the
batch on an HTTP error, otherwise process every returned item. -/
def citeBatchStep (collabB : List String → Option (List CiteItem))
    (encode : CiteItem → String) (cacheDir : Bool)
    (acc : CiteLoopAcc) (batch : List String) : CiteLoopAcc :=
  let acc := { acc with requested := acc.requested ++ batch }
  match collabB batch with
  | none => acc  -- per-batch HTTP error: skip, continue
  | some items => items.foldl (citeItemStep encode cacheDir) acc

/-- `cite` from cite.py.  `cache p` is `cache_read(cache_dir, "cite",
f"{p}.json")`; `decode` is `json.loads` on a cached payload; `collabB b` is
the decoded item list of the API response for batch `b` (`none` models the
caught per-batch `httpx` error); `encode` is `json.dumps(item)`. -/
def cite (pmids : List String) (batchSize : Nat)
    (cache : String → Option String)
    (decode : String → CiteItem)
    (collabB : List String → Option (List CiteItem))
    (encode : CiteItem → String)
    (cacheDir pmDir refresh : Bool) : CiteOut :=
  if pmids.isEmpty then ⟨[], [], [], [], []⟩
  else
    -- Deduplicate while preserving order
    let unique := dedupFirst pmids
    let part :=
      if cacheDir ∧ ¬refresh then
        unique.foldl (citePartStep cache decode)
          (([] : List (String × CiteItem)), ([] : List String))
      else ([], unique)
    let cachedR := part.1
    let uncached := part.2
    let lookups := if cacheDir ∧ ¬refresh then unique else []
    let batches := pyChunks batchSize uncached
    let loop := batches.foldl (citeBatchStep collabB encode cacheDir)
      (⟨[], [], [], []⟩ : CiteLoopAcc)
    let audits :=
      if pmDir then [⟨unique.length, cachedR.length, loop.fetched.length, refresh⟩]
      else ([] : List FetchAudit)
    let results :=
      if cachedR.isEmpty then loop.flat
      else unique.filterMap (fun p =>
        match dictFind cachedR p with
        | some item => some item
        | none => dictFind loop.fetched p)
    ⟨results, lookups, loop.requested, loop.writes, audits⟩

/-! ## `download.py`: archive-extraction guard, retry loop, batch download -/

/-- `MAX_PDF_MEMBER_SIZE` from download.py. -/
def MAX_PDF_MEMBER_SIZE : Nat := 200 * 1024 * 1024

/-- `MAX_RETRIES` from download.py. -/
def MAX_RETRIES : Nat := 3

/-- `RETRYABLE_STATUS_CODES` from download.py. -/
def RETRYABLE_STATUS_CODES : List Nat := [503, 429]

/-- One member of a tar.gz archive, as `tarfile` reports it: its name, file
flag and declared size, and the bytes `extractfile(...).read()` would yield
(`none` when `extractfile` returns None). -/
structure TarMember where
  name : String
  isFile : Bool
  size : Nat
  data : Option String
deriving Repr, DecidableEq

/-- The PDF-candidate filter inside `_extract_pdf_from_tgz`: name ends with
`.pdf` (case-insensitive), regular file, `0 < size <= MAX_PDF_MEMBER_SIZE`. -/
def pdfCandidates (members : List TarMember) : List TarMember :=
  members.filter (fun m =>
    pyEndsWith (pyLower m.name) ".pdf" && m.isFile
      && decide (0 < m.size) && decide (m.size ≤ MAX_PDF_MEMBER_SIZE))

/-- Hint-based narrowing: prefer members whose lowered name contains the
lowered PMCID, when the hint is nonempty and some member matches. -/
def hintFiltered (pmcid : String) (pdfs : List TarMember) : List TarMember :=
  if pmcid = "" then pdfs
  else
    let matching := pdfs.filter (fun m => containsSub (pyLower m.name) (pyLower pmcid))
    if matching.isEmpty then pdfs else matching

/-- Candidate selection of `_extract_pdf_from_tgz`: filter, hint-narrow, then
`max(..., key=lambda m: m.size)`. -/
def selectMember (members : List TarMember) (pmcid : String) : Option TarMember :=
  let pdfs := pdfCandidates members
  if pdfs.isEmpty then none
  else pyMaxBy (fun m => m.size) (hintFiltered pmcid pdfs)

/-- `_extract_pdf_from_tgz` from download.py.  `parseTgz` is the
`tarfile.open(...).getmembers()` oracle; `none` models `TarError`/`OSError`
on unparseable bytes. -/
def extract_pdf_from_tgz (parseTgz : String → Option (List TarMember))
    (content pmcid : String) : Option String :=
  match parseTgz content with
  | none => none
  | some members =>
    match selectMember members pmcid with
    | none => none
    | some best =>
      match best.data with
      | none => none                       -- extractfile returned None
      | some d => if d = "" then none else some d  -- `data if data else None`

/-- An HTTP response as `client.get` yields it. -/
structure HResp where
  status : Nat
  content : String
deriving Repr, DecidableEq

/-- Outcome of the retry loop around `client.get`: the last `response`
value, whether an exception escaped the loop, the number of `get` calls
made, and the sleeps taken (in units of the 0.1 s base delay). -/
structure LoopRes where
  resp : Option HResp
  raised : Bool
  attempts : Nat
  sleeps : List Nat
deriving Repr, DecidableEq

/-- The `for attempt in range(MAX_RETRIES)` loop in `download_pdfs`.
`net i` is the response of the `i`-th `client.get` (`none` = the call
raised).  Retries only on a retryable status, sleeping
`0.1 * (attempt + 1)` seconds after each retryable response. -/
def retryGo (net : Nat → Option HResp) (maxr : Nat) (attempt : Nat)
    (last : Option HResp) (sleeps : List Nat) : LoopRes :=
  if _h : maxr ≤ attempt then ⟨last, false, attempt, sleeps⟩
  else
    match net attempt with
    | none => ⟨none, true, attempt + 1, sleeps⟩
    | some r =>
      if RETRYABLE_STATUS_CODES.contains r.status then
        retryGo net maxr (attempt + 1) (some r) (sleeps ++ [attempt + 1])
      else ⟨some r, false, attempt + 1, sleeps⟩
termination_by maxr - attempt
decreasing_by omega

/-- One entry of `sources` as `download_pdfs` consumes it. -/
structure DlSource where
  pmid : String
  url : Option String
  pmcFormat : Option String
  pmcid : String
deriving Repr, DecidableEq

/-- What `download_pdfs` records for one source. -/
structure DlRecord where
  pmid : String
  status : String      -- "downloaded" | "skipped" | "failed"
  attempts : Nat
  sleeps : List Nat
deriving Repr, DecidableEq

/-- Per-source body of the `download_pdfs` loop: returns the record and the
file written, if any. -/
def processSource (net : String → Nat → Option HResp)
    (parseTgz : String → Option (List TarMember))
    (overwrite : Bool) (existing : List String) (src : DlSource) :
    DlRecord × Option (String × String) :=
  match src.url with
  | none => (⟨src.pmid, "failed", 0, []⟩, none)  -- `if not url`
  | some url =>
    if url = "" then (⟨src.pmid, "failed", 0, []⟩, none)  -- empty URL is falsy
    else
      let fname := src.pmid ++ ".pdf"
      if existing.contains fname ∧ ¬overwrite then
        (⟨src.pmid, "skipped", 0, []⟩, none)
      else
        let lr := retryGo (net url) MAX_RETRIES 0 none []
        if lr.raised then (⟨src.pmid, "failed", lr.attempts, lr.sleeps⟩, none)
        else
          match lr.resp with
          | none => (⟨src.pmid, "failed", lr.attempts, lr.sleeps⟩, none)
          | some r =>
            if ¬(r.status = 200 ∨ r.status = 226) then
              (⟨src.pmid, "failed", lr.attempts, lr.sleeps⟩, none)
            else if r.content = "" then
              (⟨src.pmid, "failed", lr.attempts, lr.sleeps⟩, none)
            else if src.pmcFormat = some "tgz" then
              match extract_pdf_from_tgz parseTgz r.content src.pmcid with
              | none => (⟨src.pmid, "failed", lr.attempts, lr.sleeps⟩, none)
              | some pdf => (⟨src.pmid, "downloaded", lr.attempts, lr.sleeps⟩, some (fname, pdf))
            else
              (⟨src.pmid, "downloaded", lr.attempts, lr.sleeps⟩, some (fname, r.content))

/-- Accumulator of the `download_pdfs` batch loop. -/
structure DlAcc where
  existing : List String
  records : List DlRecord
  files : List (String × String)
  downloaded : Nat
  skipped : Nat
  failed : Nat
deriving Repr, DecidableEq

/-- Observable outcome of `download_pdfs`. -/
structure DlOut where
  downloaded : Nat
  skipped : Nat
  failed : Nat
  records : List DlRecord
  files : List (String × String)
  audits : List (Nat × Nat × Nat × Nat)   -- (total, downloaded, skipped, failed)
deriving Repr, DecidableEq

/-- Step of the batch loop in `download_pdfs`: one source is processed and
its outcome recorded; a written file becomes visible to later sources. -/
def dlStep (net : String → Nat → Option HResp)
    (parseTgz : String → Option (List TarMember)) (overwrite : Bool)
    (acc : DlAcc) (src : DlSource) : DlAcc :=
  let pr := processSource net parseTgz overwrite acc.existing src
  let acc1 :=
    match pr.2 with
    | none => acc
    | some f => { acc with existing := acc.existing ++ [f.1], files := acc.files ++ [f] }
  { acc1 with
    records := acc1.records ++ [pr.1]
    downloaded := acc1.downloaded + (if pr.1.status = "downloaded" then 1 else 0)
    skipped := acc1.skipped + (if pr.1.status = "skipped" then 1 else 0)
    failed := acc1.failed + (if pr.1.status = "failed" then 1 else 0) }

/-- `download_pdfs` from download.py over a list of sources. -/
def download_pdfs (net : String → Nat → Option HResp)
    (parseTgz : String → Option (List TarMember))
    (sources : List DlSource) (overwrite : Bool)
    (existing0 : List String) (pmDir : Bool) : DlOut :=
  if sources.isEmpty then
    { downloaded := 0, skipped := 0, failed := 0, records := [], files := []
      audits := if pmDir then [(0, 0, 0, 0)] else [] }
  else
    let acc := sources.foldl (dlStep net parseTgz overwrite)
      ⟨existing0, [], [], 0, 0, 0⟩
    { downloaded := acc.downloaded
      skipped := acc.skipped
      failed := acc.failed
      records := acc.records
      files := acc.files
      audits :=
        if pmDir then [(sources.length, acc.downloaded, acc.skipped, acc.failed)]
        else [] }

/-! ## Claim theorems -/

/-- The temp path and the target path inside one category directory differ
whenever the temp filename differs from the key. -/
theorem tmpPath_ne_cachePath (root category key tmpName : String) (h : tmpName ≠ key) :
    cacheParent root category ++ "/" ++ tmpName ≠ cachePath root category key := by
  intro he
  apply h
  unfold cachePath cacheParent at he
  exact string_append_left_cancel (root ++ "/cache/" ++ category ++ "/") _ _ he

/-- C2 (status: code_bug).  The claim says a cache file whose bytes cannot be
decoded as UTF-8 yields a miss (`None`) without raising; the code's
`cache_read` catches only `OSError`, so the `UnicodeDecodeError` raised by
`Path.read_text` propagates to the caller.  This theorem evaluates the
embedded `cache_read` at such a file: the call raises instead of missing. -/
theorem cache_read_invalid_utf8_raises (root category key : String)
    (jV xV : String → Bool) (dirs : List String) :
    cache_read jV xV (some root) category key
      ⟨[(cachePath root category key, FileContent.badUtf8)], dirs⟩ =
      .error .unicodeDecodeError := by
  simp only [cache_read]
  rw [dictFind_cons, if_pos rfl]

/-- C3: for a `cache_write` with a present root, a failure injected at any
point of the temporary-write phase (during `os.write`, `os.close`, or
`os.replace`) leaves the store with: the error propagated, the temporary
artifact removed, every other path (in particular the target path) unchanged,
and `cache_read` of the target key returning exactly what it returned
before — no partial file is ever visible under the final name. -/
theorem cache_write_failure_atomic (root category key data tmpName : String)
    (fs : FS) (failAt : WriteFail) (hne : tmpName ≠ key) :
    (cache_write (some root) category key data fs tmpName (some failAt)).1 =
        .error .osError ∧
    dictFind (cache_write (some root) category key data fs tmpName (some failAt)).2.files
        (cacheParent root category ++ "/" ++ tmpName) = none ∧
    (∀ p, p ≠ cacheParent root category ++ "/" ++ tmpName →
      dictFind (cache_write (some root) category key data fs tmpName (some failAt)).2.files p =
        dictFind fs.files p) ∧
    dictFind (cache_write (some root) category key data fs tmpName (some failAt)).2.files
        (cachePath root category key) = dictFind fs.files (cachePath root category key) ∧
    (∀ jV xV, cache_read jV xV (some root) category key
        (cache_write (some root) category key data fs tmpName (some failAt)).2 =
      cache_read jV xV (some root) category key fs) := by
  have hframe : ∀ p, p ≠ cacheParent root category ++ "/" ++ tmpName →
      dictFind (cache_write (some root) category key data fs tmpName (some failAt)).2.files p =
        dictFind fs.files p := by
    intro p hp
    cases failAt with
    | atWrite =>
      simp only [cache_write]
      rw [dictFind_erase, if_neg hp, dictFind_insert, if_neg hp]
    | atClose =>
      simp only [cache_write]
      rw [dictFind_erase, if_neg hp, dictFind_insert, if_neg hp, dictFind_insert, if_neg hp]
    | atReplace =>
      simp only [cache_write]
      rw [dictFind_erase, if_neg hp, dictFind_insert, if_neg hp, dictFind_insert, if_neg hp]
  have htarget := hframe (cachePath root category key)
    (fun he => tmpPath_ne_cachePath root category key tmpName hne he.symm)
  refine ⟨?_, ?_, hframe, htarget, ?_⟩
  · cases failAt <;> rfl
  · cases failAt <;>
      · simp only [cache_write]
        rw [dictFind_erase, if_pos rfl]
  · intro jV xV
    simp only [cache_read]
    rw [htarget]

/-- Witness for C3 at a concrete store, key and failure point. -/
theorem cache_write_failure_atomic_witness :
    ("t.tmp" ≠ "k.json") ∧
    ((cache_write (some ".pm") "search" "k.json" "newdata"
        ⟨[(cachePath ".pm" "search" "k.json", FileContent.text "olddata")], []⟩
        "t.tmp" (some .atWrite)).1 = .error .osError ∧
     dictFind (cache_write (some ".pm") "search" "k.json" "newdata"
        ⟨[(cachePath ".pm" "search" "k.json", FileContent.text "olddata")], []⟩
        "t.tmp" (some .atWrite)).2.files
        (cacheParent ".pm" "search" ++ "/" ++ "t.tmp") = none ∧
     (∀ p, p ≠ cacheParent ".pm" "search" ++ "/" ++ "t.tmp" →
       dictFind (cache_write (some ".pm") "search" "k.json" "newdata"
          ⟨[(cachePath ".pm" "search" "k.json", FileContent.text "olddata")], []⟩
          "t.tmp" (some .atWrite)).2.files p =
         dictFind [(cachePath ".pm" "search" "k.json", FileContent.text "olddata")] p) ∧
     dictFind (cache_write (some ".pm") "search" "k.json" "newdata"
        ⟨[(cachePath ".pm" "search" "k.json", FileContent.text "olddata")], []⟩
        "t.tmp" (some .atWrite)).2.files (cachePath ".pm" "search" "k.json") =
       dictFind [(cachePath ".pm" "search" "k.json", FileContent.text "olddata")]
         (cachePath ".pm" "search" "k.json") ∧
     (∀ jV xV, cache_read jV xV (some ".pm") "search" "k.json"
        (cache_write (some ".pm") "search" "k.json" "newdata"
          ⟨[(cachePath ".pm" "search" "k.json", FileContent.text "olddata")], []⟩
          "t.tmp" (some .atWrite)).2 =
       cache_read jV xV (some ".pm") "search" "k.json"
        ⟨[(cachePath ".pm" "search" "k.json", FileContent.text "olddata")], []⟩)) :=
  ⟨by decide,
   cache_write_failure_atomic ".pm" "search" "k.json" "newdata" "t.tmp"
     ⟨[(cachePath ".pm" "search" "k.json", FileContent.text "olddata")], []⟩
     .atWrite (by decide)⟩

/-- C6: with the state root absent, `cache_read` always misses, `cache_write`
returns without raising and changes nothing, `audit_log` returns without
raising and changes nothing, and `fetch` proceeds network-only: no cache
lookups, no cache writes, no audit events, and the returned XML is exactly
what the network collaborator produced for the (blank-filtered) PMIDs. -/
theorem no_root_noop :
    (∀ (jV xV : String → Bool) (category key : String) (fs : FS),
        cache_read jV xV none category key fs = .ok none) ∧
    (∀ (category key data : String) (fs : FS) (tmpName : String)
        (failAt : Option WriteFail),
        cache_write none category key data fs tmpName failAt = (.ok (), fs)) ∧
    (∀ (line : String) (fs : FS), audit_log none line fs = (.ok (), fs)) ∧
    (∀ (isSpace : Char → Bool) (pmids : List String) (cache : String → Option String)
        (netMerged : List String → String)
        (netFragments : List String → List (String × String)),
        (fetch isSpace pmids cache netMerged netFragments false false false).result =
          (if (pmids.filter (fun p => ¬(pyStrip isSpace p = ""))).isEmpty then ""
           else netMerged (pmids.filter (fun p => ¬(pyStrip isSpace p = "")))) ∧
        (fetch isSpace pmids cache netMerged netFragments false false false).lookups = [] ∧
        (fetch isSpace pmids cache netMerged netFragments false false false).writes = [] ∧
        (fetch isSpace pmids cache netMerged netFragments false false false).audits = []) := by
  refine ⟨fun _ _ _ _ _ => rfl, fun _ _ _ _ _ _ => rfl, fun _ _ => rfl, ?_⟩
  intro isSpace pmids cache nm nf
  unfold fetch
  by_cases h : (pmids.filter (fun p => ¬(pyStrip isSpace p = ""))).isEmpty
  · rw [if_pos h, if_pos h]
    exact ⟨rfl, rfl, rfl, rfl⟩
  · rw [if_neg h, if_neg h]
    rw [if_pos (by decide : ¬(false = true))]
    exact ⟨rfl, rfl, rfl, rfl⟩

/-- C8: a cache file that exists and decodes as UTF-8 but fails its
category's format validation — malformed JSON for the json-categories
search/cite/download, malformed XML for the xml-category fetch — reads back
as a miss (`.ok none`), not an exception. -/
theorem cache_read_invalid_format_miss (root key s : String)
    (jV xV : String → Bool) (fs : FS) :
    (∀ category, JSON_CATEGORIES.contains category = true →
      dictFind fs.files (cachePath root category key) = some (.text s) →
      jV s = false →
      cache_read jV xV (some root) category key fs = .ok none) ∧
    (dictFind fs.files (cachePath root "fetch" key) = some (.text s) →
      xV s = false →
      cache_read jV xV (some root) "fetch" key fs = .ok none) := by
  constructor
  · intro category hcat hfind hjson
    simp only [cache_read]
    rw [hfind]
    have hmem : category ∈ JSON_CATEGORIES := by simpa using hcat
    simp [hmem, hjson]
  · intro hfind hxml
    simp only [cache_read]
    rw [hfind]
    simp [hxml, JSON_CATEGORIES, XML_CATEGORIES]

/-- Witness for C8: a json-category slot holding non-JSON text and an
xml-category slot holding non-XML text both read back as misses. -/
theorem cache_read_invalid_format_miss_witness :
    (JSON_CATEGORIES.contains "search" = true ∧
     dictFind (FS.mk [(cachePath ".pm" "search" "bad.json", FileContent.text "not json")] []).files
       (cachePath ".pm" "search" "bad.json") = some (.text "not json") ∧
     (fun _ => false : String → Bool) "not json" = false ∧
     cache_read (fun _ => false) (fun _ => false) (some ".pm") "search" "bad.json"
       ⟨[(cachePath ".pm" "search" "bad.json", FileContent.text "not json")], []⟩ = .ok none) ∧
    (dictFind (FS.mk [(cachePath ".pm" "fetch" "bad.xml", FileContent.text "<broken")] []).files
       (cachePath ".pm" "fetch" "bad.xml") = some (.text "<broken") ∧
     (fun _ => false : String → Bool) "<broken" = false ∧
     cache_read (fun _ => false) (fun _ => false) (some ".pm") "fetch" "bad.xml"
       ⟨[(cachePath ".pm" "fetch" "bad.xml", FileContent.text "<broken")], []⟩ = .ok none) :=
  ⟨⟨by decide, by decide, rfl,
    (cache_read_invalid_format_miss ".pm" "bad.json" "not json"
      (fun _ => false) (fun _ => false)
      ⟨[(cachePath ".pm" "search" "bad.json", FileContent.text "not json")], []⟩).1
      "search" (by decide) (by decide) rfl⟩,
   ⟨by decide, rfl,
    (cache_read_invalid_format_miss ".pm" "bad.xml" "<broken"
      (fun _ => false) (fun _ => false)
      ⟨[(cachePath ".pm" "fetch" "bad.xml", FileContent.text "<broken")], []⟩).2
      (by decide) rfl⟩⟩

/-- C10: `search` raises `ValueError` if and only if the query is empty or
consists solely of whitespace (i.e. strips to empty), and in that case the
effect trace is empty — the validation happens before any cache read,
network call, cache write or audit append.  For a query containing a
non-whitespace character, this validation raises nothing. -/
theorem search_empty_query_valueerror (isSpace : Char → Bool) (query : String)
    (maxv : Nat) (cacheDir pmDir refresh : Bool) (hkey : String)
    (cached : Option SearchEnv) (network : List String) :
    ((search isSpace query maxv cacheDir pmDir refresh hkey cached network).1 =
        .error .valueError ↔ pyStrip isSpace query = "") ∧
    (pyStrip isSpace query = "" →
      (search isSpace query maxv cacheDir pmDir refresh hkey cached network).2 = []) := by
  by_cases h : query = "" ∨ pyStrip isSpace query = ""
  · have hs : pyStrip isSpace query = "" := by
      rcases h with h | h
      · rw [h]; exact pyStrip_empty isSpace
      · exact h
    unfold search
    rw [if_pos h]
    exact ⟨⟨fun _ => hs, fun _ => rfl⟩, fun _ => rfl⟩
  · push_neg at h
    unfold search
    rw [if_neg (by push_neg; exact h)]
    constructor
    · constructor
      · intro hres
        exfalso
        by_cases hcd : cacheDir ∧ ¬refresh
        · rw [if_pos hcd] at hres
          cases cached with
          | none => simp at hres
          | some env => simp at hres
        · rw [if_neg hcd] at hres
          simp at hres
      · intro hs; exact absurd hs h.2
    · intro hs; exact absurd hs h.2

/-- Witness for C10 at a whitespace-only and a nonblank query. -/
theorem search_empty_query_valueerror_witness :
    (((search pyIsSpace "  " 5 true true false "k" none ["1"]).1 =
        .error .valueError ↔ pyStrip pyIsSpace "  " = "") ∧
      (pyStrip pyIsSpace "  " = "" →
        (search pyIsSpace "  " 5 true true false "k" none ["1"]).2 = [])) ∧
    (((search pyIsSpace "crispr" 5 true true false "k" none ["1"]).1 =
        .error .valueError ↔ pyStrip pyIsSpace "crispr" = "") ∧
      (pyStrip pyIsSpace "crispr" = "" →
        (search pyIsSpace "crispr" 5 true true false "k" none ["1"]).2 = [])) :=
  ⟨search_empty_query_valueerror pyIsSpace "  " 5 true true false "k" none ["1"],
   search_empty_query_valueerror pyIsSpace "crispr" 5 true true false "k" none ["1"]⟩

/-- C5: in `search` with a state root present, a fresh (non-cached) fetch —
whether a cache miss or an explicit refresh — appends the audit event
strictly before the cache write: the trace ends
`[..., network, audit, cache-write]`, so the audit event is durably
persisted no later than the cache entry. -/
theorem search_audit_before_cache_write (isSpace : Char → Bool) (query : String)
    (maxv : Nat) (hkey : String) (cached : Option SearchEnv) (network : List String)
    (hq : ¬(pyStrip isSpace query = "")) :
    (cached = none →
      (search isSpace query maxv true true false hkey cached network).2 =
        [SEvent.cacheReadEv hkey, SEvent.networkEv query maxv,
         SEvent.auditEv false, SEvent.cacheWriteEv hkey]) ∧
    ((search isSpace query maxv true true true hkey cached network).2 =
        [SEvent.networkEv query maxv, SEvent.auditEv false, SEvent.cacheWriteEv hkey]) := by
  have hne : ¬(query = "" ∨ pyStrip isSpace query = "") := by
    push_neg
    refine ⟨?_, hq⟩
    intro he
    exact hq (by rw [he]; exact pyStrip_empty isSpace)
  constructor
  · intro hc
    subst hc
    unfold search
    rw [if_neg hne]
    rfl
  · unfold search
    rw [if_neg hne]
    rfl

/-- Witness for C5 at a concrete query. -/
theorem search_audit_before_cache_write_witness :
    ((none : Option SearchEnv) = none →
      (search pyIsSpace "q" 5 true true false "k" none ["1"]).2 =
        [SEvent.cacheReadEv "k", SEvent.networkEv "q" 5,
         SEvent.auditEv false, SEvent.cacheWriteEv "k"]) ∧
    ((search pyIsSpace "q" 5 true true true "k" none ["1"]).2 =
        [SEvent.networkEv "q" 5, SEvent.auditEv false, SEvent.cacheWriteEv "k"]) :=
  search_audit_before_cache_write pyIsSpace "q" 5 "k" none ["1"] (by decide)

/-- Cache collaborator for the C1 counterexample: PMID "1" is cached. -/
def c1cache : String → Option String :=
  fun p => if p = "1" then some "<A/>" else none

/-- Network collaborators for the C1 counterexample (never consulted: the
duplicate input is fully cached). -/
def c1merged : List String → String := fun _ => ""

/-- Fragment collaborator for the C1 counterexample. -/
def c1frag : List String → List (String × String) := fun _ => []

/-- C1 counterexample: `fetch` does NOT collapse duplicate requested
identifiers.  With input `["1", "1"]` and PMID "1" cached, `fetch` performs
two cache lookups (one per occurrence, so duplicates are not collapsed
before the lookup) and reassembles two output fragments, so the output
length is 2, not the unique-identifier count 1. -/
theorem fetch_duplicate_not_collapsed_cex :
    (fetch pyIsSpace ["1", "1"] c1cache c1merged c1frag true false false).lookups =
        ["1", "1"] ∧
    (fetch pyIsSpace ["1", "1"] c1cache c1merged c1frag true false false).frags.length = 2 ∧
    (dedupFirst ["1", "1"]).length = 1 := by
  refine ⟨?_, ?_, by decide⟩ <;> decide

/-! ### Retry-loop lemmas for C7 -/

theorem retryGo_attempts_le_fuel (net : Nat → Option HResp) (maxr : Nat) :
    ∀ (fuel attempt : Nat) (last : Option HResp) (sleeps : List Nat),
      maxr - attempt ≤ fuel → attempt ≤ maxr →
      (retryGo net maxr attempt last sleeps).attempts ≤ maxr := by
  intro fuel
  induction fuel with
  | zero =>
    intro attempt last sleeps hfuel hle
    have heq : attempt = maxr := le_antisymm hle (by omega)
    rw [retryGo, dif_pos (le_of_eq heq.symm)]
    exact le_of_eq heq
  | succ n ih =>
    intro attempt last sleeps hfuel hle
    rw [retryGo]
    by_cases h : maxr ≤ attempt
    · rw [dif_pos h]
      exact le_antisymm hle h |>.le
    · rw [dif_neg h]
      cases hn : net attempt with
      | none =>
        simp only [hn]
        exact Nat.succ_le_of_lt (lt_of_not_le h)
      | some r =>
        simp only [hn]
        by_cases hr : RETRYABLE_STATUS_CODES.contains r.status
        · rw [if_pos hr]
          exact ih (attempt + 1) (some r) (sleeps ++ [attempt + 1]) (by omega) (by omega)
        · rw [if_neg hr]
          exact Nat.succ_le_of_lt (lt_of_not_le h)

theorem retryGo_attempts_le (net : Nat → Option HResp) (maxr : Nat) :
    (retryGo net maxr 0 none []).attempts ≤ maxr :=
  retryGo_attempts_le_fuel net maxr maxr 0 none [] (by omega) (Nat.zero_le maxr)

/-- The retry loop when the first two responses are retryable and the third
is not: 3 attempts, sleeps after attempts 1 and 2, final response returned. -/
theorem retryGo_two_retryable_then_stop (net : Nat → Option HResp)
    (r0 r1 r2 : HResp)
    (h0 : net 0 = some r0) (hr0 : RETRYABLE_STATUS_CODES.contains r0.status = true)
    (h1 : net 1 = some r1) (hr1 : RETRYABLE_STATUS_CODES.contains r1.status = true)
    (h2 : net 2 = some r2) (hr2 : RETRYABLE_STATUS_CODES.contains r2.status = false) :
    retryGo net MAX_RETRIES 0 none [] = ⟨some r2, false, 3, [1, 2]⟩ := by
  rw [retryGo, dif_neg (by decide)]
  simp only [h0, hr0, if_true]
  rw [retryGo, dif_neg (by decide)]
  simp only [h1, hr1, if_true]
  rw [retryGo, dif_neg (by decide)]
  simp only [h2, hr2, Bool.false_eq_true, if_false]
  rfl

/-- The retry loop when every response is retryable: exactly 3 attempts,
sleeps after each, last response kept. -/
theorem retryGo_all_retryable (net : Nat → Option HResp) (r0 r1 r2 : HResp)
    (h0 : net 0 = some r0) (hr0 : RETRYABLE_STATUS_CODES.contains r0.status = true)
    (h1 : net 1 = some r1) (hr1 : RETRYABLE_STATUS_CODES.contains r1.status = true)
    (h2 : net 2 = some r2) (hr2 : RETRYABLE_STATUS_CODES.contains r2.status = true) :
    retryGo net MAX_RETRIES 0 none [] = ⟨some r2, false, 3, [1, 2, 3]⟩ := by
  rw [retryGo, dif_neg (by decide)]
  simp only [h0, hr0, if_true]
  rw [retryGo, dif_neg (by decide)]
  simp only [h1, hr1, if_true]
  rw [retryGo, dif_neg (by decide)]
  simp only [h2, hr2, if_true]
  rw [retryGo, dif_pos (by decide)]
  rfl

/-- Every source contributes exactly one record to the batch loop. -/
theorem dlFold_records_length (net : String → Nat → Option HResp)
    (parseTgz : String → Option (List TarMember)) (overwrite : Bool) :
    ∀ (sources : List DlSource) (acc : DlAcc),
      (sources.foldl (dlStep net parseTgz overwrite) acc).records.length =
        acc.records.length + sources.length := by
  intro sources
  induction sources with
  | nil => intro acc; simp
  | cons src rest ih =>
    intro acc
    rw [List.foldl_cons, ih]
    have hstep : (dlStep net parseTgz overwrite acc src).records.length =
        acc.records.length + 1 := by
      unfold dlStep
      cases hpr : (processSource net parseTgz overwrite acc.existing src).2 with
      | none => simp [hpr]
      | some f => simp [hpr]
    rw [hstep, List.length_cons]
    omega

theorem processSource_attempts_le (net : String → Nat → Option HResp)
    (parseTgz : String → Option (List TarMember)) (overwrite : Bool)
    (existing : List String) (src : DlSource) :
    (processSource net parseTgz overwrite existing src).1.attempts ≤ MAX_RETRIES := by
  unfold processSource
  cases hu : src.url with
  | none => exact Nat.zero_le _
  | some u =>
    simp only []
    by_cases hue : u = ""
    · rw [if_pos hue]; exact Nat.zero_le _
    · rw [if_neg hue]
      by_cases hsk : existing.contains (src.pmid ++ ".pdf") ∧ ¬overwrite
      · rw [if_pos hsk]; exact Nat.zero_le _
      · rw [if_neg hsk]
        have hb := retryGo_attempts_le (net u) MAX_RETRIES
        repeat' split
        all_goals first
          | exact Nat.zero_le _
          | exact hb

/-- C7: for each item of `download_pdfs` with a URL: at most `MAX_RETRIES = 3`
request attempts are made; a stub answering retryable statuses (503/429)
twice and then succeeding yields exactly 3 attempts, linearly increasing
sleeps `[1,2]` (in 0.1 s units) and a recorded download; a stub always
answering a retryable status yields exactly 3 attempts, sleeps `[1,2,3]` and
a recorded failure — never an unbounded loop; and every source of a batch
yields exactly one record, so later items are still processed. -/
theorem download_retry_bounded (net : String → Nat → Option HResp)
    (parseTgz : String → Option (List TarMember)) (overwrite : Bool)
    (existing : List String) (src : DlSource) (u : String) (r0 r1 r2 : HResp) :
    ((processSource net parseTgz overwrite existing src).1.attempts ≤ MAX_RETRIES) ∧
    (src.url = some u → ¬(u = "") →
      ¬(existing.contains (src.pmid ++ ".pdf") ∧ ¬overwrite) →
      ¬(src.pmcFormat = some "tgz") →
      net u 0 = some r0 → RETRYABLE_STATUS_CODES.contains r0.status = true →
      net u 1 = some r1 → RETRYABLE_STATUS_CODES.contains r1.status = true →
      net u 2 = some r2 → r2.status = 200 → ¬(r2.content = "") →
      (processSource net parseTgz overwrite existing src).1 =
        ⟨src.pmid, "downloaded", 3, [1, 2]⟩) ∧
    (src.url = some u → ¬(u = "") →
      ¬(existing.contains (src.pmid ++ ".pdf") ∧ ¬overwrite) →
      net u 0 = some r0 → RETRYABLE_STATUS_CODES.contains r0.status = true →
      net u 1 = some r1 → RETRYABLE_STATUS_CODES.contains r1.status = true →
      net u 2 = some r2 → RETRYABLE_STATUS_CODES.contains r2.status = true →
      (processSource net parseTgz overwrite existing src).1 =
        ⟨src.pmid, "failed", 3, [1, 2, 3]⟩) ∧
    (∀ (sources : List DlSource) (existing0 : List String) (pmDir : Bool),
      (download_pdfs net parseTgz sources overwrite existing0 pmDir).records.length =
        sources.length) := by
  refine ⟨processSource_attempts_le net parseTgz overwrite existing src, ?_, ?_, ?_⟩
  · intro hu hue hsk htgz h0 hr0 h1 hr1 h2 hst hc
    have hloop : retryGo (net u) MAX_RETRIES 0 none [] = ⟨some r2, false, 3, [1, 2]⟩ :=
      retryGo_two_retryable_then_stop (net u) r0 r1 r2 h0 hr0 h1 hr1 h2
        (by rw [hst]; decide)
    unfold processSource
    rw [hu]
    simp only [hloop]
    rw [if_neg hue, if_neg hsk]
    simp only [Bool.false_eq_true, if_false]
    rw [if_neg (by rw [hst]; decide), if_neg hc, if_neg htgz]
  · intro hu hue hsk h0 hr0 h1 hr1 h2 hr2
    have hloop : retryGo (net u) MAX_RETRIES 0 none [] = ⟨some r2, false, 3, [1, 2, 3]⟩ :=
      retryGo_all_retryable (net u) r0 r1 r2 h0 hr0 h1 hr1 h2 hr2
    have hst : r2.status = 503 ∨ r2.status = 429 := by
      simpa [RETRYABLE_STATUS_CODES] using hr2
    unfold processSource
    rw [hu]
    simp only [hloop]
    rw [if_neg hue, if_neg hsk]
    simp only [Bool.false_eq_true, if_false]
    rw [if_pos (by rcases hst with h | h <;> rw [h] <;> decide)]
  · intro sources existing0 pmDir
    unfold download_pdfs
    by_cases hs : sources.isEmpty
    · rw [if_pos hs]
      rw [List.isEmpty_iff.mp hs]
      rfl
    · rw [if_neg hs]
      simp only []
      rw [dlFold_records_length]
      simp

/-- Success-after-two-retries stub for the C7 witness. -/
def c7netSucc : String → Nat → Option HResp :=
  fun _ i => if i < 2 then some ⟨503, "overloaded"⟩ else some ⟨200, "PDFBYTES"⟩

/-- Always-503 stub for the C7 witness. -/
def c7netFail : String → Nat → Option HResp := fun _ _ => some ⟨503, "overloaded"⟩

/-- Archive oracle for the C7 witness (no archives involved). -/
def c7tgz : String → Option (List TarMember) := fun _ => none

/-- A source with a URL for the C7 witness. -/
def c7src : DlSource := ⟨"10", some "https://x/a.pdf", none, ""⟩

/-- Witness for C7: the retry/record behavior at the two concrete stubs, and
a two-item batch where the first item fails all retries yet both items are
recorded. -/
theorem download_retry_bounded_witness :
    (processSource c7netSucc c7tgz false [] c7src).1.attempts ≤ MAX_RETRIES ∧
    (processSource c7netSucc c7tgz false [] c7src).1 =
      ⟨"10", "downloaded", 3, [1, 2]⟩ ∧
    (processSource c7netFail c7tgz false [] c7src).1 =
      ⟨"10", "failed", 3, [1, 2, 3]⟩ ∧
    (download_pdfs c7netFail c7tgz [c7src, c7src] false [] false).records.length = 2 := by
  refine ⟨(download_retry_bounded c7netSucc c7tgz false [] c7src "https://x/a.pdf"
      ⟨503, "overloaded"⟩ ⟨503, "overloaded"⟩ ⟨200, "PDFBYTES"⟩).1, ?_, ?_, ?_⟩
  · exact (download_retry_bounded c7netSucc c7tgz false [] c7src "https://x/a.pdf"
      ⟨503, "overloaded"⟩ ⟨503, "overloaded"⟩ ⟨200, "PDFBYTES"⟩).2.1
      rfl (by decide) (by decide) (by decide) rfl (by decide) rfl (by decide) rfl rfl
      (by decide)
  · exact (download_retry_bounded c7netFail c7tgz false [] c7src "https://x/a.pdf"
      ⟨503, "overloaded"⟩ ⟨503, "overloaded"⟩ ⟨503, "overloaded"⟩).2.2.1
      rfl (by decide) (by decide) rfl (by decide) rfl (by decide) rfl (by decide)
  · exact (download_retry_bounded c7netFail c7tgz false [] c7src "https://x/a.pdf"
      ⟨503, "overloaded"⟩ ⟨503, "overloaded"⟩ ⟨503, "overloaded"⟩).2.2.2
      [c7src, c7src] [] false

theorem hintFiltered_subset (pmcid : String) (pdfs : List TarMember) :
    ∀ m ∈ hintFiltered pmcid pdfs, m ∈ pdfs := by
  intro m hm
  unfold hintFiltered at hm
  by_cases hp : pmcid = ""
  · rw [if_pos hp] at hm; exact hm
  · rw [if_neg hp] at hm
    by_cases he : (pdfs.filter (fun m => containsSub (pyLower m.name) (pyLower pmcid))).isEmpty
    · rw [if_pos he] at hm; exact hm
    · rw [if_neg he] at hm
      exact List.mem_of_mem_filter hm

/-- C9: the archive-extraction guard.  A selected member always comes from
the candidate filter, so its size never exceeds `MAX_PDF_MEMBER_SIZE`
(oversized members are rejected, not extracted); the selected member is
size-maximal among the (hint-narrowed) candidates and, when the nonempty
hint matches some candidate, its name contains the hint; and unparseable
bytes, an archive with no PDF candidates, or an empty best candidate all
yield the `none` (extraction-failed) outcome rather than an exception. -/
theorem extract_guard_properties (parseTgz : String → Option (List TarMember))
    (content pmcid : String) (members : List TarMember) (best : TarMember) :
    (selectMember members pmcid = some best →
      best.size ≤ MAX_PDF_MEMBER_SIZE ∧
      best ∈ pdfCandidates members ∧
      (∀ m ∈ hintFiltered pmcid (pdfCandidates members), m.size ≤ best.size) ∧
      (¬(pmcid = "") →
        ¬((pdfCandidates members).filter
            (fun m => containsSub (pyLower m.name) (pyLower pmcid))).isEmpty →
        containsSub (pyLower best.name) (pyLower pmcid) = true)) ∧
    (parseTgz content = none →
      extract_pdf_from_tgz parseTgz content pmcid = none) ∧
    (parseTgz content = some members → pdfCandidates members = [] →
      extract_pdf_from_tgz parseTgz content pmcid = none) ∧
    (parseTgz content = some members → selectMember members pmcid = some best →
      (best.data = none ∨ best.data = some "") →
      extract_pdf_from_tgz parseTgz content pmcid = none) := by
  refine ⟨?_, ?_, ?_, ?_⟩
  · intro hsel
    unfold selectMember at hsel
    by_cases he : (pdfCandidates members).isEmpty
    · rw [if_pos he] at hsel; exact absurd hsel (by simp)
    · rw [if_neg he] at hsel
      have hmem := pyMaxBy_mem _ _ _ hsel
      have hle := pyMaxBy_le _ _ _ hsel
      have hmemc : best ∈ pdfCandidates members := hintFiltered_subset pmcid _ best hmem
      have hpred := (List.mem_filter.mp hmemc).2
      simp only [Bool.and_eq_true, decide_eq_true_eq] at hpred
      refine ⟨hpred.2, hmemc, hle, ?_⟩
      intro hp hne
      have hHF : hintFiltered pmcid (pdfCandidates members) =
          (pdfCandidates members).filter
            (fun m => containsSub (pyLower m.name) (pyLower pmcid)) := by
        unfold hintFiltered
        rw [if_neg hp, if_neg hne]
      rw [hHF] at hmem
      exact (List.mem_filter.mp hmem).2
  · intro hn
    simp only [extract_pdf_from_tgz, hn]
  · intro hp hempty
    simp only [extract_pdf_from_tgz, hp]
    have hsel : selectMember members pmcid = none := by
      unfold selectMember
      rw [if_pos (by rw [hempty]; rfl)]
    rw [hsel]
  · intro hp hsel hdata
    simp only [extract_pdf_from_tgz, hp, hsel]
    rcases hdata with hd | hd
    · rw [hd]
    · rw [hd]
      simp

/-- Members of the archive used by the C9 witness: a supplementary PDF, the
hint-matching main PDF, an oversized PDF, a non-PDF file and a non-file PDF
entry. -/
def c9members : List TarMember :=
  [⟨"supp.PDF", true, 10, some "SUPP"⟩,
   ⟨"pmc77.pdf", true, 5, some "MAIN"⟩,
   ⟨"huge.pdf", true, 209715201, some "HUGE"⟩,
   ⟨"notes.txt", true, 9, some "TXT"⟩,
   ⟨"dir.pdf", false, 7, none⟩]

/-- Archive oracle for the C9 witness. -/
def c9parse : String → Option (List TarMember) :=
  fun c => if c = "tgzbytes" then some c9members else none

/-- Archive oracle with no PDF candidates for the C9 witness. -/
def c9parseNoCand : String → Option (List TarMember) :=
  fun _ => some [⟨"readme.txt", true, 4, some "README"⟩]

/-- Archive oracle whose only candidate extracts to empty bytes. -/
def c9parseEmptyBest : String → Option (List TarMember) :=
  fun _ => some [⟨"e.pdf", true, 3, some ""⟩]

/-- The hint-matching member the guard selects in the C9 witness. -/
def c9best : TarMember := ⟨"pmc77.pdf", true, 5, some "MAIN"⟩

/-- The largest candidate the guard selects when no hint is given. -/
def c9supp : TarMember := ⟨"supp.PDF", true, 10, some "SUPP"⟩

/-- Witness for C9: with hint "PMC77" the guard picks the hint-matching
member (within the size bound); with no hint it picks the largest candidate
(`supp.PDF`, 10 ≥ 5); and the three failure shapes return `none`. -/
theorem extract_guard_properties_witness :
    c9best.size ≤ MAX_PDF_MEMBER_SIZE ∧
    c9best ∈ pdfCandidates c9members ∧
    containsSub (pyLower c9best.name) (pyLower "PMC77") = true ∧
    c9best.size ≤ c9supp.size ∧
    extract_pdf_from_tgz c9parse "garbage" "PMC77" = none ∧
    extract_pdf_from_tgz c9parseNoCand "tgzbytes" "" = none ∧
    extract_pdf_from_tgz c9parseEmptyBest "tgzbytes" "" = none := by
  have h1 := (extract_guard_properties c9parse "tgzbytes" "PMC77" c9members c9best).1
    (by decide)
  have h2 := (extract_guard_properties c9parse "tgzbytes" "" c9members c9supp).1
    (by decide)
  refine ⟨h1.1, h1.2.1, h1.2.2.2 (by decide) (by decide), ?_, ?_, ?_, ?_⟩
  · exact h2.2.2.1 c9best (by decide)
  · exact (extract_guard_properties c9parse "garbage" "PMC77" c9members c9best).2.1
      (by decide)
  · exact (extract_guard_properties c9parseNoCand "tgzbytes" ""
      [⟨"readme.txt", true, 4, some "README"⟩] c9best).2.2.1 rfl (by decide)
  · exact (extract_guard_properties c9parseEmptyBest "tgzbytes" ""
      [⟨"e.pdf", true, 3, some ""⟩] ⟨"e.pdf", true, 3, some ""⟩).2.2.2 rfl
      (by decide) (Or.inr rfl)

/-! ### Partition and fold lemmas for C1/C4 -/

theorem fetchPart_uncached (cache : String → Option String) :
    ∀ (l : List String) (acc : List (String × String) × List String),
      (l.foldl (fetchPartStep cache) acc).2 =
        acc.2 ++ l.filter (fun p => (cache p).isNone) := by
  intro l
  induction l with
  | nil => intro acc; simp
  | cons p tl ih =>
    intro acc
    rw [List.foldl_cons]
    cases hc : cache p with
    | some c =>
      rw [List.filter_cons_of_neg (by simp [hc])]
      rw [show fetchPartStep cache acc p = (dictInsert acc.1 p c, acc.2) by
        simp [fetchPartStep, hc]]
      exact ih _
    | none =>
      rw [List.filter_cons_of_pos (by simp [hc])]
      rw [show fetchPartStep cache acc p = (acc.1, acc.2 ++ [p]) by
        simp [fetchPartStep, hc]]
      rw [ih]
      simp

theorem fetchPart_find (cache : String → Option String) (q : String) :
    ∀ (l : List String) (acc : List (String × String) × List String),
      dictFind (l.foldl (fetchPartStep cache) acc).1 q =
        if q ∈ l ∧ (cache q).isSome then cache q else dictFind acc.1 q := by
  intro l
  induction l with
  | nil => intro acc; simp
  | cons p tl ih =>
    intro acc
    rw [List.foldl_cons]
    cases hc : cache p with
    | some c =>
      rw [show fetchPartStep cache acc p = (dictInsert acc.1 p c, acc.2) by
        simp [fetchPartStep, hc]]
      rw [ih]
      by_cases hq : q ∈ tl ∧ (cache q).isSome
      · rw [if_pos hq, if_pos ⟨List.mem_cons_of_mem p hq.1, hq.2⟩]
      · rw [if_neg hq, dictFind_insert]
        by_cases hqp : q = p
        · subst hqp
          rw [if_pos rfl, if_pos ⟨List.mem_cons_self q tl, by rw [hc]; rfl⟩, hc]
        · rw [if_neg hqp]
          rw [if_neg (fun hcon => hq ⟨(List.mem_cons.mp hcon.1).resolve_left hqp, hcon.2⟩)]
    | none =>
      rw [show fetchPartStep cache acc p = (acc.1, acc.2 ++ [p]) by
        simp [fetchPartStep, hc]]
      rw [ih]
      by_cases hq : q ∈ tl ∧ (cache q).isSome
      · rw [if_pos hq, if_pos ⟨List.mem_cons_of_mem p hq.1, hq.2⟩]
      · rw [if_neg hq]
        by_cases hqp : q = p
        · subst hqp
          rw [if_neg (fun hcon => by rw [hc] at hcon; simp at hcon)]
        · rw [if_neg (fun hcon => hq ⟨(List.mem_cons.mp hcon.1).resolve_left hqp, hcon.2⟩)]

theorem citePart_uncached (cache : String → Option String) (decode : String → CiteItem) :
    ∀ (l : List String) (acc : List (String × CiteItem) × List String),
      (l.foldl (citePartStep cache decode) acc).2 =
        acc.2 ++ l.filter (fun p => (cache p).isNone) := by
  intro l
  induction l with
  | nil => intro acc; simp
  | cons p tl ih =>
    intro acc
    rw [List.foldl_cons]
    cases hc : cache p with
    | some c =>
      rw [List.filter_cons_of_neg (by simp [hc])]
      rw [show citePartStep cache decode acc p = (dictInsert acc.1 p (decode c), acc.2) by
        simp [citePartStep, hc]]
      exact ih _
    | none =>
      rw [List.filter_cons_of_pos (by simp [hc])]
      rw [show citePartStep cache decode acc p = (acc.1, acc.2 ++ [p]) by
        simp [citePartStep, hc]]
      rw [ih]
      simp

theorem citePart_find (cache : String → Option String) (decode : String → CiteItem)
    (q : String) :
    ∀ (l : List String) (acc : List (String × CiteItem) × List String),
      dictFind (l.foldl (citePartStep cache decode) acc).1 q =
        if q ∈ l ∧ (cache q).isSome then Option.map decode (cache q)
        else dictFind acc.1 q := by
  intro l
  induction l with
  | nil => intro acc; simp
  | cons p tl ih =>
    intro acc
    rw [List.foldl_cons]
    cases hc : cache p with
    | some c =>
      rw [show citePartStep cache decode acc p = (dictInsert acc.1 p (decode c), acc.2) by
        simp [citePartStep, hc]]
      rw [ih]
      by_cases hq : q ∈ tl ∧ (cache q).isSome
      · rw [if_pos hq, if_pos ⟨List.mem_cons_of_mem p hq.1, hq.2⟩]
      · rw [if_neg hq, dictFind_insert]
        by_cases hqp : q = p
        · subst hqp
          rw [if_pos rfl, if_pos ⟨List.mem_cons_self q tl, by rw [hc]; rfl⟩, hc]
          rfl
        · rw [if_neg hqp]
          rw [if_neg (fun hcon => hq ⟨(List.mem_cons.mp hcon.1).resolve_left hqp, hcon.2⟩)]
    | none =>
      rw [show citePartStep cache decode acc p = (acc.1, acc.2 ++ [p]) by
        simp [citePartStep, hc]]
      rw [ih]
      by_cases hq : q ∈ tl ∧ (cache q).isSome
      · rw [if_pos hq, if_pos ⟨List.mem_cons_of_mem p hq.1, hq.2⟩]
      · rw [if_neg hq]
        by_cases hqp : q = p
        · subst hqp
          rw [if_neg (fun hcon => by rw [hc] at hcon; simp at hcon)]
        · rw [if_neg (fun hcon => hq ⟨(List.mem_cons.mp hcon.1).resolve_left hqp, hcon.2⟩)]

theorem dictFind_insertFold (itemOf : String → CiteItem) (q : String) :
    ∀ (l : List String) (d : List (String × CiteItem)),
      dictFind (l.foldl (fun d p => dictInsert d p (itemOf p)) d) q =
        if q ∈ l then some (itemOf q) else dictFind d q := by
  intro l
  induction l with
  | nil => intro d; simp
  | cons p tl ih =>
    intro d
    rw [List.foldl_cons, ih]
    by_cases hq : q ∈ tl
    · rw [if_pos hq, if_pos (List.mem_cons_of_mem p hq)]
    · rw [if_neg hq, dictFind_insert]
      by_cases hqp : q = p
      · subst hqp
        rw [if_pos rfl, if_pos (List.mem_cons_self q tl)]
      · rw [if_neg hqp, if_neg (fun hcon => hqp ((List.mem_cons.mp hcon).resolve_right hq))]

theorem filterMap_length_of_isSome (f : α → Option β) :
    ∀ l : List α, (∀ x ∈ l, (f x).isSome) → (l.filterMap f).length = l.length := by
  intro l
  induction l with
  | nil => intro _; rfl
  | cons x xs ih =>
    intro h
    cases hx : f x with
    | none =>
      exact absurd (h x (List.mem_cons_self x xs)) (by rw [hx]; simp)
    | some b =>
      rw [List.filterMap_cons_some hx, List.length_cons, List.length_cons,
        ih (fun y hy => h y (List.mem_cons_of_mem x hy))]

/-- C4: order preservation under a partial cache hit.  For identifiers
`[A, B, C]` with `B` cached and `A`, `C` not, both per-item-keyed operations
reassemble the output in input order `[A, B, C]`: `fetch`'s fragment list is
`[fa, fb, fc]` for any fragment map the collaborator returns containing `A`
and `C`, and `cite`'s result list is `[ia, ib, ic]` whether the collaborator
returns the two fresh items as `[ia, ic]` or `[ic, ia]` — output order
follows the input identifiers, not cache or fetch-map insertion order. -/
theorem partial_hit_order_preserved (isSpace : Char → Bool)
    (A B C fa fb fc : String)
    (cacheF : String → Option String) (netMerged : List String → String)
    (netFragments : List String → List (String × String)) (pd : Bool)
    (batchSize : Nat) (cacheC : String → Option String)
    (decode : String → CiteItem) (collabB : List String → Option (List CiteItem))
    (encode : CiteItem → String) (ia ib ic : CiteItem) (items : List CiteItem)
    (sb : String)
    (hAB : A ≠ B) (hAC : A ≠ C) (hBC : B ≠ C)
    (hsA : ¬(pyStrip isSpace A = "")) (hsB : ¬(pyStrip isSpace B = ""))
    (hsC : ¬(pyStrip isSpace C = "")) :
    (cacheF A = none → cacheF B = some fb → cacheF C = none →
      ¬(netMerged [A, C] = "") →
      dictFind (dictOfPairs (netFragments [A, C])) A = some fa →
      dictFind (dictOfPairs (netFragments [A, C])) C = some fc →
      (fetch isSpace [A, B, C] cacheF netMerged netFragments true pd false).frags =
        [fa, fb, fc]) ∧
    (cacheC A = none → cacheC B = some sb → cacheC C = none → decode sb = ib →
      2 ≤ batchSize → collabB [A, C] = some items →
      (items = [ia, ic] ∨ items = [ic, ia]) → ia.pmid = A → ic.pmid = C →
      (cite [A, B, C] batchSize cacheC decode collabB encode true pd false).results =
        [ia, ib, ic]) := by
  have hBA := Ne.symm hAB
  have hCA := Ne.symm hAC
  have hCB := Ne.symm hBC
  have hA0 : ¬(A = "") := fun h => hsA (by rw [h]; exact pyStrip_empty isSpace)
  have hC0 : ¬(C = "") := fun h => hsC (by rw [h]; exact pyStrip_empty isSpace)
  constructor
  · intro hcA hcB hcC hm hfA hfC
    have hfil : List.filter (fun p => ¬(pyStrip isSpace p = "")) [A, B, C] = [A, B, C] := by
      simp [hsA, hsB, hsC]
    have hpart2 : (([A, B, C] : List String).foldl (fetchPartStep cacheF)
        (([] : List (String × String)), ([] : List String))).2 = [A, C] := by
      rw [fetchPart_uncached]
      simp [hcA, hcB, hcC]
    have hpfA : dictFind (([A, B, C] : List String).foldl (fetchPartStep cacheF)
        (([] : List (String × String)), ([] : List String))).1 A = none := by
      rw [fetchPart_find, if_neg (by rw [hcA]; simp)]
      rfl
    have hpfB : dictFind (([A, B, C] : List String).foldl (fetchPartStep cacheF)
        (([] : List (String × String)), ([] : List String))).1 B = some fb := by
      rw [fetchPart_find, if_pos ⟨by simp, by rw [hcB]; rfl⟩]
      exact hcB
    have hpfC : dictFind (([A, B, C] : List String).foldl (fetchPartStep cacheF)
        (([] : List (String × String)), ([] : List String))).1 C = none := by
      rw [fetchPart_find, if_neg (by rw [hcC]; simp)]
      rfl
    unfold fetch
    rw [hfil]
    rw [if_neg (show ¬(([A, B, C] : List String).isEmpty = true) by simp)]
    rw [if_neg (show ¬¬(true = true) by simp)]
    simp only [hpart2, hpfA, hpfB, hpfC]
    rw [if_pos (show ¬(false = true) by simp)]
    simp only [hpart2, hpfA, hpfB, hpfC]
    rw [if_pos (show ¬(([A, C] : List String).isEmpty = true) by simp)]
    rw [if_pos (show ¬(([A, C] : List String).isEmpty = true) ∧ ¬(netMerged [A, C] = "")
      from ⟨by simp, hm⟩)]
    simp only [List.filterMap_cons, List.filterMap_nil, hpfA, hpfB, hpfC, hfA, hfC]
  · intro hcA hcB hcC hdec hbs hcoll hord hia hic
    have huniq : dedupFirst [A, B, C] = [A, B, C] := by
      simp [dedupFirst, hBA, hCA, hCB]
    have hpart2 : (([A, B, C] : List String).foldl (citePartStep cacheC decode)
        (([] : List (String × CiteItem)), ([] : List String))).2 = [A, C] := by
      rw [citePart_uncached]
      simp [hcA, hcB, hcC]
    have hpfA : dictFind (([A, B, C] : List String).foldl (citePartStep cacheC decode)
        (([] : List (String × CiteItem)), ([] : List String))).1 A = none := by
      rw [citePart_find, if_neg (by rw [hcA]; simp)]
      rfl
    have hpfB : dictFind (([A, B, C] : List String).foldl (citePartStep cacheC decode)
        (([] : List (String × CiteItem)), ([] : List String))).1 B = some ib := by
      rw [citePart_find, if_pos ⟨by simp, by rw [hcB]; rfl⟩, hcB]
      rw [show Option.map decode (some sb) = some (decode sb) from rfl, hdec]
    have hpfC : dictFind (([A, B, C] : List String).foldl (citePartStep cacheC decode)
        (([] : List (String × CiteItem)), ([] : List String))).1 C = none := by
      rw [citePart_find, if_neg (by rw [hcC]; simp)]
      rfl
    have hne : (([A, B, C] : List String).foldl (citePartStep cacheC decode)
        (([] : List (String × CiteItem)), ([] : List String))).1.isEmpty = false := by
      cases hd : (([A, B, C] : List String).foldl (citePartStep cacheC decode)
          (([] : List (String × CiteItem)), ([] : List String))).1 with
      | nil => rw [hd, dictFind_nil] at hpfB; cases hpfB
      | cons x xs => rfl
    have hchunks : pyChunks batchSize [A, C] = [[A, C]] := by
      rw [pyChunks, if_neg (by omega)]
      rw [List.take_of_length_le (by simp; omega), List.drop_eq_nil_of_le (by simp; omega)]
      rw [pyChunks]
    have hLA : dictFind ((([[A, C]] : List (List String))).foldl
        (citeBatchStep collabB encode true) ⟨[], [], [], []⟩).fetched A = some ia := by
      simp only [List.foldl_cons, List.foldl_nil, citeBatchStep, hcoll]
      rcases hord with h | h <;> subst h <;>
        simp only [List.foldl_cons, List.foldl_nil, citeItemStep, hia, hic] <;>
        rw [if_neg hA0, if_neg hC0] <;>
        simp only [] <;>
        rw [dictFind_insert]
      · rw [if_neg hAC, dictFind_insert, if_pos rfl]
      · rw [if_pos rfl]
    have hLC : dictFind ((([[A, C]] : List (List String))).foldl
        (citeBatchStep collabB encode true) ⟨[], [], [], []⟩).fetched C = some ic := by
      simp only [List.foldl_cons, List.foldl_nil, citeBatchStep, hcoll]
      rcases hord with h | h <;> subst h <;>
        simp only [List.foldl_cons, List.foldl_nil, citeItemStep, hia, hic] <;>
        rw [if_neg hA0, if_neg hC0] <;>
        simp only [] <;>
        rw [dictFind_insert]
      · rw [if_pos rfl]
      · rw [if_neg hCA, dictFind_insert, if_pos rfl]
    unfold cite
    rw [if_neg (show ¬(([A, B, C] : List String).isEmpty = true) by simp)]
    dsimp only
    rw [huniq]
    rw [if_pos (show (true = true) ∧ ¬(false = true) from ⟨rfl, by simp⟩)]
    rw [hpart2, hchunks]
    rw [if_neg (show ¬((([A, B, C] : List String).foldl (citePartStep cacheC decode)
        (([] : List (String × CiteItem)), ([] : List String))).1.isEmpty = true)
      by rw [hne]; simp)]
    simp only [List.filterMap_cons, List.filterMap_nil, hpfA, hpfB, hpfC, hLA, hLC]

/-- Cache stub for the C4 witness (fetch side): only "2" is cached. -/
def c4cacheF : String → Option String :=
  fun p => if p = "2" then some "<b/>" else none

/-- Merged-response stub for the C4 witness. -/
def c4merged : List String → String := fun _ => "<set/>"

/-- Fragment-map stub for the C4 witness, returning C before A. -/
def c4frag : List String → List (String × String) :=
  fun _ => [("3", "<c/>"), ("1", "<a/>")]

/-- Cache stub for the C4 witness (cite side). -/
def c4cacheC : String → Option String :=
  fun p => if p = "2" then some "SB" else none

/-- Decode stub for the C4 witness. -/
def c4decode : String → CiteItem := fun _ => ⟨"2", "IB"⟩

/-- Collaborator stub for the C4 witness, returning item C before item A. -/
def c4collab : List String → Option (List CiteItem) :=
  fun _ => some [⟨"3", "IC"⟩, ⟨"1", "IA"⟩]

/-- Encode stub for the C4 witness. -/
def c4encode : CiteItem → String := fun item => item.body

/-- Witness for C4: with "2" pre-cached and the collaborator returning "3"
before "1", both operations still emit input order ["1", "2", "3"]. -/
theorem partial_hit_order_preserved_witness :
    (fetch pyIsSpace ["1", "2", "3"] c4cacheF c4merged c4frag true false false).frags =
      ["<a/>", "<b/>", "<c/>"] ∧
    (cite ["1", "2", "3"] 200 c4cacheC c4decode c4collab c4encode true false false).results =
      [⟨"1", "IA"⟩, ⟨"2", "IB"⟩, ⟨"3", "IC"⟩] := by
  have h := partial_hit_order_preserved pyIsSpace "1" "2" "3" "<a/>" "<b/>" "<c/>"
    c4cacheF c4merged c4frag false 200 c4cacheC c4decode c4collab c4encode
    ⟨"1", "IA"⟩ ⟨"2", "IB"⟩ ⟨"3", "IC"⟩ [⟨"3", "IC"⟩, ⟨"1", "IA"⟩] "SB"
    (by decide) (by decide) (by decide) (by decide) (by decide) (by decide)
  exact ⟨h.1 rfl rfl rfl (by decide) (by decide) (by decide),
    h.2 rfl rfl rfl rfl (by decide) rfl (Or.inr rfl) rfl rfl⟩

theorem string_append_right_cancel (a b t : String) (h : a ++ t = b ++ t) : a = b := by
  apply string_eq_of_data_eq
  have hd := congrArg String.data h
  rw [string_append_data, string_append_data] at hd
  exact List.append_cancel_right hd

/-- Closed form of `cite`'s per-item loop over a well-behaved response: the
response items are `b.map itemOf` with faithful, nonempty PMIDs. -/
theorem citeItem_fold_map (encode : CiteItem → String) (itemOf : String → CiteItem)
    (hpm : ∀ p, (itemOf p).pmid = p) :
    ∀ (b : List String) (a : CiteLoopAcc), (∀ p ∈ b, ¬(p = "")) →
      (b.map itemOf).foldl (citeItemStep encode true) a =
        ⟨b.foldl (fun d p => dictInsert d p (itemOf p)) a.fetched,
         a.flat ++ b.map itemOf,
         a.writes ++ b.map (fun p => (p ++ ".json", encode (itemOf p))),
         a.requested⟩ := by
  intro b
  induction b with
  | nil =>
    intro a _
    simp
  | cons p tl ih =>
    intro a hnz
    rw [List.map_cons, List.foldl_cons, List.foldl_cons]
    rw [show citeItemStep encode true a (itemOf p) =
        ⟨dictInsert a.fetched p (itemOf p), a.flat ++ [itemOf p],
         a.writes ++ [(p ++ ".json", encode (itemOf p))], a.requested⟩ by
      unfold citeItemStep
      dsimp only
      rw [hpm p]
      rw [if_neg (hnz p (List.mem_cons_self p tl)), if_pos rfl]]
    rw [ih _ (fun q hq => hnz q (List.mem_cons_of_mem p hq))]
    simp

/-- Closed form of `cite`'s per-batch loop when every batch succeeds and the
collaborator returns exactly one faithful item per requested id. -/
theorem citeBatch_fold (collabB : List String → Option (List CiteItem))
    (encode : CiteItem → String) (itemOf : String → CiteItem)
    (hpm : ∀ p, (itemOf p).pmid = p)
    (hcoll : ∀ b, collabB b = some (b.map itemOf)) :
    ∀ (batches : List (List String)) (acc : CiteLoopAcc),
      (∀ b ∈ batches, ∀ p ∈ b, ¬(p = "")) →
      batches.foldl (citeBatchStep collabB encode true) acc =
        ⟨batches.flatten.foldl (fun d p => dictInsert d p (itemOf p)) acc.fetched,
         acc.flat ++ batches.flatten.map itemOf,
         acc.writes ++ batches.flatten.map (fun p => (p ++ ".json", encode (itemOf p))),
         acc.requested ++ batches.flatten⟩ := by
  intro batches
  induction batches with
  | nil =>
    intro acc _
    simp
  | cons b bs ih =>
    intro acc hnz
    rw [List.foldl_cons]
    rw [show citeBatchStep collabB encode true acc b =
        (b.map itemOf).foldl (citeItemStep encode true)
          ⟨acc.fetched, acc.flat, acc.writes, acc.requested ++ b⟩ by
      unfold citeBatchStep
      dsimp only
      rw [hcoll b]]
    rw [citeItem_fold_map encode itemOf hpm b _ (hnz b (List.mem_cons_self b bs))]
    rw [ih _ (fun b' hb' => hnz b' (List.mem_cons_of_mem b hb'))]
    dsimp only
    rw [List.flatten_cons, List.foldl_append, List.map_append, List.map_append]
    simp [List.append_assoc]

/-- C1 (amended): `cite` collapses duplicate requested identifiers before
any cache lookup or network fetch, preserving first-occurrence order — one
cache lookup per unique id, each uncached unique id requested exactly once
(no duplicate network fetch), no duplicate cache-write key, and (when the
collaborator resolves every requested id) the output length equals the
count of unique input identifiers.  `fetch`, by contrast, does not collapse
duplicates: it performs one cache lookup per input occurrence. -/
theorem cite_dedups_fetch_does_not
    (pmids : List String) (batchSize : Nat) (cache : String → Option String)
    (decode : String → CiteItem) (collabB : List String → Option (List CiteItem))
    (encode : CiteItem → String) (pd : Bool) (itemOf : String → CiteItem)
    (isSpace : Char → Bool) (cacheF : String → Option String)
    (netMerged : List String → String)
    (netFragments : List String → List (String × String))
    (hne : ¬(pmids.isEmpty = true)) (hbs : batchSize ≠ 0)
    (hcoll : ∀ b, collabB b = some (b.map itemOf))
    (hpm : ∀ p, (itemOf p).pmid = p)
    (hnz : ∀ p ∈ pmids, ¬(p = ""))
    (hfne : ¬((pmids.filter (fun p => ¬(pyStrip isSpace p = ""))).isEmpty = true)) :
    (cite pmids batchSize cache decode collabB encode true pd false).lookups =
        dedupFirst pmids ∧
    (cite pmids batchSize cache decode collabB encode true pd false).requested =
        (dedupFirst pmids).filter (fun p => (cache p).isNone) ∧
    (cite pmids batchSize cache decode collabB encode true pd false).requested.Nodup ∧
    ((cite pmids batchSize cache decode collabB encode true pd false).writes.map
        Prod.fst).Nodup ∧
    (cite pmids batchSize cache decode collabB encode true pd false).results.length =
        (dedupFirst pmids).length ∧
    (fetch isSpace pmids cacheF netMerged netFragments true pd false).lookups =
        pmids.filter (fun p => ¬(pyStrip isSpace p = "")) := by
  have hcond : (true = true) ∧ ¬(false = true) := ⟨rfl, by simp⟩
  -- shorthand facts
  have hU : ((dedupFirst pmids).foldl (citePartStep cache decode)
      (([] : List (String × CiteItem)), ([] : List String))).2 =
      (dedupFirst pmids).filter (fun p => (cache p).isNone) := by
    rw [citePart_uncached]
    simp
  have hfsub : ∀ p ∈ (dedupFirst pmids).filter (fun p => (cache p).isNone), ¬(p = "") :=
    fun p hp => hnz p ((dedupFirst_mem pmids p).mp (List.mem_of_mem_filter hp))
  have hflat : (pyChunks batchSize
      ((dedupFirst pmids).filter (fun p => (cache p).isNone))).flatten =
      (dedupFirst pmids).filter (fun p => (cache p).isNone) :=
    pyChunks_flatten batchSize hbs _
  have hBnz : ∀ b ∈ pyChunks batchSize
      ((dedupFirst pmids).filter (fun p => (cache p).isNone)), ∀ p ∈ b, ¬(p = "") := by
    intro b hb p hp
    exact hfsub p (by rw [← hflat]; exact List.mem_flatten.mpr ⟨b, hb, hp⟩)
  have hloop := citeBatch_fold collabB encode itemOf hpm hcoll
    (pyChunks batchSize ((dedupFirst pmids).filter (fun p => (cache p).isNone)))
    ⟨[], [], [], []⟩ hBnz
  have hNodupU : ((dedupFirst pmids).filter (fun p => (cache p).isNone)).Nodup :=
    (dedupFirst_nodup pmids).filter _
  -- the cite call reduced to its record form
  have hlook : (cite pmids batchSize cache decode collabB encode true pd false).lookups =
      dedupFirst pmids := by
    unfold cite
    rw [if_neg hne]
    dsimp only
    rw [if_pos hcond]
  have hreq : (cite pmids batchSize cache decode collabB encode true pd false).requested =
      (dedupFirst pmids).filter (fun p => (cache p).isNone) := by
    unfold cite
    rw [if_neg hne]
    dsimp only
    rw [if_pos hcond, hU, hloop]
    dsimp only
    rw [List.nil_append, hflat]
  have hwr : (cite pmids batchSize cache decode collabB encode true pd false).writes =
      ((dedupFirst pmids).filter (fun p => (cache p).isNone)).map
        (fun p => (p ++ ".json", encode (itemOf p))) := by
    unfold cite
    rw [if_neg hne]
    dsimp only
    rw [if_pos hcond, hU, hloop]
    dsimp only
    rw [List.nil_append, hflat]
  have hres : (cite pmids batchSize cache decode collabB encode true pd false).results.length =
      (dedupFirst pmids).length := by
    unfold cite
    rw [if_neg hne]
    dsimp only
    rw [if_pos hcond, hU, hloop]
    dsimp only
    by_cases hemp : ((dedupFirst pmids).foldl (citePartStep cache decode)
        (([] : List (String × CiteItem)), ([] : List String))).1 = []
    · rw [if_pos (by rw [hemp]; rfl)]
      have hall : ∀ p ∈ dedupFirst pmids, (cache p).isNone := by
        intro p hp
        cases hc : cache p with
        | none => rfl
        | some c =>
          exfalso
          have hfind := citePart_find cache decode p (dedupFirst pmids)
            (([] : List (String × CiteItem)), ([] : List String))
          rw [hemp, dictFind_nil, if_pos ⟨hp, by rw [hc]; rfl⟩, hc] at hfind
          cases hfind
      rw [List.nil_append, hflat, List.filter_eq_self.mpr hall, List.length_map]
    · rw [if_neg (by
        intro hcon
        exact hemp (List.isEmpty_iff.mp hcon))]
      apply filterMap_length_of_isSome
      intro p hp
      have hfind := citePart_find cache decode p (dedupFirst pmids)
        (([] : List (String × CiteItem)), ([] : List String))
      cases hc : cache p with
      | some c =>
        rw [if_pos ⟨hp, by rw [hc]; rfl⟩, hc] at hfind
        rw [hfind]
        rfl
      | none =>
        rw [if_neg (by rw [hc]; simp), dictFind_nil] at hfind
        rw [hfind]
        rw [dictFind_insertFold]
        rw [if_pos (by
          rw [hflat]
          exact List.mem_filter.mpr ⟨hp, by rw [hc]; rfl⟩)]
        rfl
  refine ⟨hlook, hreq, ?_, ?_, hres, ?_⟩
  · rw [hreq]
    exact hNodupU
  · rw [hwr]
    rw [List.map_map]
    apply List.Nodup.map _ hNodupU
    intro a b hab
    exact string_append_right_cancel a b ".json" hab
  · unfold fetch
    rw [if_neg hfne]
    rw [if_neg (show ¬¬(true = true) by simp)]
    dsimp only
    rw [if_pos (show ¬(false = true) by simp)]

/-- Cache stub for the C1-amended witness: only "2" is cached. -/
def c1wcache : String → Option String :=
  fun p => if p = "2" then some "CB" else none

/-- Item the collaborator returns for id `p` in the C1-amended witness. -/
def c1wItemOf : String → CiteItem := fun p => ⟨p, "F" ++ p⟩

/-- Collaborator stub for the C1-amended witness. -/
def c1wCollab : List String → Option (List CiteItem) :=
  fun b => some (b.map c1wItemOf)

/-- Decode stub for the C1-amended witness. -/
def c1wDecode : String → CiteItem := fun _ => ⟨"2", "B"⟩

/-- Encode stub for the C1-amended witness. -/
def c1wEncode : CiteItem → String := fun item => item.body

/-- Witness for the amended C1 at input ["1", "2", "1", "3"] with "2"
cached: one lookup per unique id, one fetch for each of "1" and "3", no
duplicate write keys, three outputs — while `fetch` still looks up "1"
twice. -/
theorem cite_dedups_fetch_does_not_witness :
    (cite ["1", "2", "1", "3"] 200 c1wcache c1wDecode c1wCollab c1wEncode
        true false false).lookups = dedupFirst ["1", "2", "1", "3"] ∧
    (cite ["1", "2", "1", "3"] 200 c1wcache c1wDecode c1wCollab c1wEncode
        true false false).requested =
      (dedupFirst ["1", "2", "1", "3"]).filter (fun p => (c1wcache p).isNone) ∧
    (cite ["1", "2", "1", "3"] 200 c1wcache c1wDecode c1wCollab c1wEncode
        true false false).requested.Nodup ∧
    ((cite ["1", "2", "1", "3"] 200 c1wcache c1wDecode c1wCollab c1wEncode
        true false false).writes.map Prod.fst).Nodup ∧
    (cite ["1", "2", "1", "3"] 200 c1wcache c1wDecode c1wCollab c1wEncode
        true false false).results.length =
      (dedupFirst ["1", "2", "1", "3"]).length ∧
    (fetch pyIsSpace ["1", "2", "1", "3"] c1wcache c1merged c1frag
        true false false).lookups =
      ["1", "2", "1", "3"].filter (fun p => ¬(pyStrip pyIsSpace p = "")) :=
  cite_dedups_fetch_does_not ["1", "2", "1", "3"] 200 c1wcache c1wDecode c1wCollab
    c1wEncode false c1wItemOf pyIsSpace c1wcache c1merged c1frag
    (by decide) (by decide) (fun b => rfl) (fun p => rfl) (by decide) (by decide)

end PmTools

